import Mathlib

/-!
# Unified-storage search facade and its service wrapper

A shallow embedding of
* `pkg/storage/unified/resource/search_server.go` (the `searchServer` facade:
  `NewResourceSearchServer`, `Init`, `Stop`, `Search`, `GetStats`),
* `pkg/storage/unified/sql/search_service.go` (the `searchService` wrapper:
  `ProvideUnifiedSearchGrpcService`, `starting`, `running`),

and of the helpers around them:
* `pkg/services/accesscontrol/pluginutils/actions.go`,
* `pkg/services/ngalert/api/lazy_loading.go` and `cache_etag.go`,
* `pkg/apiserver/auditing/policy_rule_evaluator.go`,
* `pkg/services/accesscontrol/resourcepermissions/api_adapter.go`,
* `pkg/registry/apis/datasource/manifest` (`loader.go`, `provider.go`, `factory.go`),
* `pkg/registry/apps/alerting/notifications/receiver/receivertesting/authorize.go`,
* `pkg/tsdb/influxdb/handlers.go` (`HandleSQLQuery`).

Go methods that mutate the receiver become functions returning the new
receiver, the returned value and the list of calls made to collaborators
(lifecycle hooks, index subsystem, backend, ring, transport).  What a
collaborator returns when it is called is an input of the model.
-/

namespace Grafana

/-! ## Go error values -/

/-- A Go `error` value.  `new` is an error without a wrapped cause
(`errors.New`, or `fmt.Errorf` whose verbs are `%s`/`%v`), `wrapped` is
`fmt.Errorf("<msg>%w", inner)` and `canceled` is the sentinel
`context.Canceled`. A nil `error` is `none : Option Error`. -/
inductive Error where
  | new (msg : String)
  | wrapped (msg : String) (inner : Error)
  | canceled
  deriving DecidableEq, Repr

namespace Error

/-- The text returned by the Go method `err.Error()`. -/
def text : Grafana.Error → String
  | new msg => msg
  | wrapped msg inner => msg ++ inner.text
  | canceled => "context canceled"

/-- The function `errors.Is(err, context.Canceled)`: follows the `Unwrap` chain. -/
def isCanceled : Grafana.Error → Bool
  | new _ => false
  | wrapped _ inner => inner.isCanceled
  | canceled => true

end Error

/-- The function `fmt.Errorf(msg + "%w", err)` for an `err` that may be nil: a nil
operand is not wrapped, it is printed as `%!w(<nil>)`; the result is never nil. -/
def errorfW (msg : String) : Option Error → Error
  | some err => Error.wrapped msg err
  | none => Error.new (msg ++ "%!w(<nil>)")

/-- The function `fmt.Errorf(msg + "%s", err)`: the cause is printed, not wrapped. -/
def errorfS (msg : String) (err : Error) : Error :=
  Error.new (msg ++ err.text)

/-! ## Collaborators of the facade -/

/-- A `resourcepb.ResourceSearchRequest` (protobuf message, identified by a number). -/
structure ResourceSearchRequest where
  id : Nat
  deriving DecidableEq, Repr

/-- A `resourcepb.ResourceSearchResponse`. -/
structure ResourceSearchResponse where
  id : Nat
  deriving DecidableEq, Repr

/-- A `resourcepb.ResourceStatsRequest`. -/
structure ResourceStatsRequest where
  id : Nat
  deriving DecidableEq, Repr

/-- A `resourcepb.ResourceStatsResponse`. -/
structure ResourceStatsResponse where
  id : Nat
  deriving DecidableEq, Repr

/-- The `StorageBackend` interface value held by the facade.  The two flags are
the dynamic type assertions the code makes on it: `opts.Backend.(BlobSupport)`
and `s.backend.(resourcepb.ResourceIndexServer)`. -/
structure StorageBackend where
  id : Nat
  implementsBlobSupport : Bool
  implementsResourceIndexServer : Bool
  deriving DecidableEq, Repr

/-- A `BlobSupport` implementation. -/
inductive BlobSupport where
  | configured (id : Nat)
  | cdk (bucketURL : String)
  | ofBackend (backend : StorageBackend)
  deriving DecidableEq, Repr

/-- The index subsystem `*searchSupport` built by `newSearchSupport`. -/
structure searchSupport where
  id : Nat
  deriving DecidableEq, Repr

/-- A `LifecycleHooks` implementation (`Init`/`Stop` callbacks). -/
structure LifecycleHooks where
  id : Nat
  deriving DecidableEq, Repr

/-- An OTel `trace.Tracer`. -/
inductive Tracer where
  | noop (name : String)
  | custom (id : Nat)
  deriving DecidableEq, Repr

/-- An access-control client (`claims.AccessClient`). -/
inductive AccessClient where
  | fixed (allow : Bool)
  | custom (id : Nat)
  deriving DecidableEq, Repr

/-- A `resourcepb.DiagnosticsServer`. -/
inductive DiagnosticsServer where
  | noopService
  | custom (id : Nat)
  deriving DecidableEq, Repr

/-- The time source `Now func() int64`. -/
inductive NowFunc where
  | wallClockMillis
  | custom (id : Nat)
  deriving DecidableEq, Repr

/-- A call made by the facade (or its constructor) to a collaborator. -/
inductive Event where
  | lifecycleInit
  | lifecycleStop
  | searchInit
  | logError (msg : String)
  | cancel
  | searchSearch (req : ResourceSearchRequest)
  | searchGetStats (req : ResourceStatsRequest)
  | backendGetStats (req : ResourceStatsRequest)
  | openBlobBucket (url : String)
  | newCDKBlobSupport (url : String)
  | newSearchSupport
  deriving DecidableEq, Repr

/-- What each collaborator returns if it is called during one call of a facade
method.  A Go result pair `(resp, err)` is kept as a pair of options. -/
structure Collaborators where
  lifecycleInit : Option Error
  lifecycleStop : Option Error
  searchInit : Option Error
  searchSearch : ResourceSearchRequest → Option ResourceSearchResponse × Option Error
  searchGetStats : ResourceStatsRequest → Option ResourceStatsResponse × Option Error
  backendGetStats : ResourceStatsRequest → Option ResourceStatsResponse × Option Error

/-! ## The facade `searchServer` -/

/-- The struct `searchServer`.  `once` is true when `sync.Once` has already run
its function; `cancelled` is true when `cancel` has been called on the
background context.  `ctx`, `cancel` and `log` are always set by the
constructor and are not nilable here. -/
structure searchServer where
  tracer : Tracer
  backend : StorageBackend
  blob : Option BlobSupport
  search : Option searchSupport
  diagnostics : DiagnosticsServer
  access : AccessClient
  lifecycle : Option LifecycleHooks
  now : NowFunc
  cancelled : Bool
  once : Bool
  initErr : Option Error
  maxPageSizeBytes : Int
  deriving DecidableEq, Repr

/-- The outcome of a method call: the receiver afterwards, the returned value
and the collaborator calls made, in order. -/
structure Effect (α : Type) where
  state : searchServer
  ret : α
  events : List Event

namespace searchServer

/-- The function passed to `s.once.Do` in `Init`: returns the new `initErr`
and the calls made. -/
def initBody (s : searchServer) (w : Collaborators) : Option Error × List Event :=
  -- Call lifecycle hooks
  let (e1, ev1) : Option Error × List Event :=
    match s.lifecycle with
    | some _ =>
      match w.lifecycleInit with
      | some err => (some (Error.wrapped "initialize Resource Server: " err), [Event.lifecycleInit])
      | none => (s.initErr, [Event.lifecycleInit])
    | none => (s.initErr, [])
  -- initialize the search index
  let (e2, ev2) : Option Error × List Event :=
    if e1.isNone && s.search.isSome then (w.searchInit, [Event.searchInit]) else (e1, [])
  let ev3 : List Event :=
    if e2.isSome then [Event.logError "error running resource server init"] else []
  (e2, ev1 ++ ev2 ++ ev3)

/-- The method `searchServer.Init`. -/
def Init (s : searchServer) (w : Collaborators) : Effect (Option Error) :=
  if s.once then
    ⟨s, s.initErr, []⟩
  else
    let r := initBody s w
    ⟨{ s with once := true, initErr := r.1 }, r.1, r.2⟩

/-- The method `searchServer.Stop`. -/
def Stop (s : searchServer) (w : Collaborators) : Effect (Option Error) :=
  let s1 : searchServer := { s with initErr := some (Error.new "service is stopping") }
  let (s2, stopFailed, ev) : searchServer × Bool × List Event :=
    match s1.lifecycle with
    | some _ =>
      match w.lifecycleStop with
      | some err =>
        ({ s1 with initErr := some (Error.wrapped "service stopeed with error: " err) }, true,
          [Event.lifecycleStop])
      | none => (s1, false, [Event.lifecycleStop])
    | none => (s1, false, [])
  -- Stops the streaming
  let s3 : searchServer := { s2 with cancelled := true }
  -- mark the value as done
  if stopFailed then
    ⟨s3, s3.initErr, ev ++ [Event.cancel]⟩
  else
    ⟨{ s3 with initErr := some (Error.new "service is stopped") }, none, ev ++ [Event.cancel]⟩

/-- The method `searchServer.Search`. -/
def Search (s : searchServer) (w : Collaborators) (req : ResourceSearchRequest) :
    Effect (Option ResourceSearchResponse × Option Error) :=
  match s.search with
  | none => ⟨s, (none, some (Error.new "search index not configured")), []⟩
  | some _ => ⟨s, w.searchSearch req, [Event.searchSearch req]⟩

/-- The method `searchServer.GetStats`. -/
def GetStats (s : searchServer) (w : Collaborators) (req : ResourceStatsRequest) :
    Effect (Option ResourceStatsResponse × Option Error) :=
  let i := s.Init w
  match i.ret with
  | some err => ⟨i.state, (none, some err), i.events⟩
  | none =>
    match i.state.search with
    | none =>
      -- If the backend implements "GetStats", we can use it
      if i.state.backend.implementsResourceIndexServer then
        ⟨i.state, w.backendGetStats req, i.events ++ [Event.backendGetStats req]⟩
      else
        ⟨i.state, (none, some (Error.new "search index not configured")), i.events⟩
    | some _ => ⟨i.state, w.searchGetStats req, i.events ++ [Event.searchGetStats req]⟩

end searchServer

/-! ## The constructor `NewResourceSearchServer` -/

/-- A `DocumentBuilderSupplier` (the supported resource types). -/
structure DocumentBuilderSupplier where
  id : Nat
  deriving DecidableEq, Repr

/-- The struct `BlobConfig`, as far as the constructor reads it. -/
structure BlobConfig where
  URL : String
  Backend : Option BlobSupport
  deriving DecidableEq, Repr

/-- The struct `SearchOptions` (the index backend and ring handles are left out:
the constructor only hands them on to `newSearchSupport`). -/
structure SearchOptions where
  Resources : Option DocumentBuilderSupplier
  WorkerThreads : Int
  InitMinCount : Int
  InitMaxCount : Int
  RebuildInterval : Int
  deriving DecidableEq, Repr

/-- The struct `ResourceSearchServerOptions`, as far as the constructor reads it. -/
structure ResourceSearchServerOptions where
  Tracer : Option Grafana.Tracer
  Backend : Option StorageBackend
  Blob : BlobConfig
  Search : SearchOptions
  Diagnostics : Option DiagnosticsServer
  AccessClient : Option Grafana.AccessClient
  Lifecycle : Option LifecycleHooks
  Now : Option NowFunc
  MaxPageSizeBytes : Int
  deriving DecidableEq, Repr

/-- What the functions called by the constructor return if they are called:
`OpenBlobBucket`, `NewCDKBlobSupport` (a nil error means the bucket / blob
support for the URL was built) and `newSearchSupport`. -/
structure Construction where
  openBlobBucket : String → Option Error
  newCDKBlobSupport : String → Option Error
  newSearchSupport : Except Error searchSupport

/-- The outcome of the constructor: the Go result pair and the collaborator
calls made, in order. -/
structure Built where
  server : Option searchServer
  err : Option Error
  events : List Event

/-- The block "Initialize the blob storage" of `NewResourceSearchServer`:
the blob store or the error returned early, with the calls made. -/
def initBlobStorage (opts : ResourceSearchServerOptions) (backend : StorageBackend)
    (c : Construction) : Except Error (Option BlobSupport) × List Event :=
  match opts.Blob.Backend with
  | some blobstore => (.ok (some blobstore), [])
  | none =>
    if opts.Blob.URL ≠ "" then
      match c.openBlobBucket opts.Blob.URL with
      | some err => (.error err, [Event.openBlobBucket opts.Blob.URL])
      | none =>
        match c.newCDKBlobSupport opts.Blob.URL with
        | some err =>
          (.error err, [Event.openBlobBucket opts.Blob.URL, Event.newCDKBlobSupport opts.Blob.URL])
        | none =>
          (.ok (some (BlobSupport.cdk opts.Blob.URL)),
            [Event.openBlobBucket opts.Blob.URL, Event.newCDKBlobSupport opts.Blob.URL])
    else
      -- Check if the backend supports blob storage
      if backend.implementsBlobSupport then (.ok (some (BlobSupport.ofBackend backend)), [])
      else (.ok none, [])

/-- The function `NewResourceSearchServer`. -/
def NewResourceSearchServer (opts : ResourceSearchServerOptions) (c : Construction)
    (w : Collaborators) : Built :=
  let tracer := match opts.Tracer with
    | some t => t
    | none => Tracer.noop "resource-server"
  match opts.Backend with
  | none => ⟨none, some (Error.new "missing Backend implementation"), []⟩
  | some backend =>
    let access := match opts.AccessClient with
      | some a => a
      | none => AccessClient.fixed true -- everything OK
    let diagnostics := match opts.Diagnostics with
      | some d => d
      | none => DiagnosticsServer.noopService
    let now := match opts.Now with
      | some n => n
      | none => NowFunc.wallClockMillis
    -- By default, we use 2MB for the page size.
    let maxPageSizeBytes : Int :=
      if opts.MaxPageSizeBytes ≤ 0 then 1024 * 1024 * 2 else opts.MaxPageSizeBytes
    match initBlobStorage opts backend c with
    | (.error err, ev1) => ⟨none, some err, ev1⟩
    | (.ok blobstore, ev1) =>
      let s : searchServer :=
        { tracer := tracer, backend := backend, blob := blobstore, search := none,
          diagnostics := diagnostics, access := access, lifecycle := opts.Lifecycle,
          now := now, cancelled := false, once := false, initErr := none,
          maxPageSizeBytes := maxPageSizeBytes }
      let withSearch : Except Error searchServer × List Event :=
        match opts.Search.Resources with
        | some _ =>
          match c.newSearchSupport with
          | .error err => (.error err, [Event.newSearchSupport])
          | .ok search => (.ok { s with search := some search }, [Event.newSearchSupport])
        | none => (.ok s, [])
      match withSearch with
      | (.error err, ev2) => ⟨none, some err, ev1 ++ ev2⟩
      | (.ok s2, ev2) =>
        let i := s2.Init w
        match i.ret with
        | some err =>
          ⟨none, some err, ev1 ++ ev2 ++ i.events ++ [Event.logError "resource server init failed"]⟩
        | none => ⟨some i.state, none, ev1 ++ ev2 ++ i.events⟩

/-! ## The service wrapper `searchService` -/

/-- The ring instance states of `dskit/ring`. -/
inductive InstanceState where
  | ACTIVE
  | LEAVING
  | PENDING
  | JOINING
  | LEFT
  deriving DecidableEq, Repr

/-- A `*ring.BasicLifecycler`, as far as the wrapper uses it. -/
structure BasicLifecycler where
  instanceID : String
  keepInstanceInTheRingOnShutdown : Bool
  deriving DecidableEq, Repr

/-- The part of `setting.Cfg` read by `starting`. -/
structure Cfg where
  EnableSharding : Bool
  deriving DecidableEq, Repr

/-- A `grpcserver.Provider` (the RPC transport). -/
structure Provider where
  id : Nat
  deriving DecidableEq, Repr

/-- A Go channel value that has been made. -/
structure Chan where
  closed : Bool
  deriving DecidableEq, Repr

/-- The struct `searchService`, as far as `starting` and `running` use it.  A
nil pointer or nil channel is `none`. -/
structure searchService where
  hasSubservices : Bool
  cfg : Cfg
  stopCh : Option Chan
  stoppedCh : Option Chan
  handler : Option Provider
  ringLifecycler : Option BasicLifecycler
  deriving DecidableEq, Repr

/-- A call made by the service wrapper to a collaborator.  `goHandlerRun` is the
`go` statement that starts the goroutine calling `s.handler.Run(ctx)`. -/
inductive ServiceEvent where
  | watchManager
  | startManagerAndAwaitHealthy
  | provideStandaloneAuthZClient
  | newSearchOptions
  | println (msg : String)
  | newResourceSearchServer
  | provideService
  | provideHealthService
  | registerServers
  | provideReflectionService
  | waitInstanceState (instanceID : String) (state : InstanceState)
  | changeState (state : InstanceState)
  | goHandlerRun
  | closeStopCh
  deriving DecidableEq, Repr

/-- What each function called by `starting` returns if it is called. -/
structure StartingEnv where
  startManagerAndAwaitHealthy : Option Error
  provideStandaloneAuthZClient : Option Error
  newSearchOptions : Option Error
  newResourceSearchServer : Option Error
  provideService : Option Provider × Option Error
  provideHealthService : Option Error
  provideReflectionService : Option Error
  waitInstanceState : Option Error
  changeState : Option Error

/-- How a Go function ends: it returns its `error` result, or it panics. -/
inductive Result where
  | returned (err : Option Error)
  | panicked (msg : String)
  deriving DecidableEq, Repr

/-- The outcome of a method call on the service wrapper. -/
structure ServiceEffect where
  state : searchService
  ret : Result
  events : List ServiceEvent

namespace searchService

/-- The tail of `starting` from `if s.cfg.EnableSharding` on: the ring handshake
and the `go` statement that runs the transport.  `pre` is the list of calls
made before. -/
def startingRing (s : searchService) (e : StartingEnv) (pre : List ServiceEvent) :
    ServiceEffect :=
  if s.cfg.EnableSharding then
    match s.ringLifecycler with
    | none => ⟨s, .panicked "nil pointer dereference", pre⟩
    | some lfc =>
      match e.waitInstanceState with
      | some err =>
        ⟨s, .returned (some (errorfS "error switching to JOINING in the ring: " err)),
          pre ++ [.waitInstanceState lfc.instanceID .JOINING]⟩
      | none =>
        match e.changeState with
        | some err =>
          ⟨s, .returned (some (errorfS "error switching to ACTIVE in the ring: " err)),
            pre ++ [.waitInstanceState lfc.instanceID .JOINING, .changeState .ACTIVE]⟩
        | none =>
          -- start the gRPC server
          ⟨s, .returned none,
            pre ++ [.waitInstanceState lfc.instanceID .JOINING, .changeState .ACTIVE,
              .goHandlerRun]⟩
  else
    -- start the gRPC server
    ⟨s, .returned none, pre ++ [.goHandlerRun]⟩

/-- The method `searchService.starting`. -/
def starting (s : searchService) (e : StartingEnv) : ServiceEffect :=
  let ev0 : List ServiceEvent :=
    if s.hasSubservices then [.watchManager, .startManagerAndAwaitHealthy] else []
  match (if s.hasSubservices then e.startManagerAndAwaitHealthy else none) with
  | some err => ⟨s, .returned (some (Error.wrapped "failed to start subservices: " err)), ev0⟩
  | none =>
  let ev1 := ev0 ++ [.provideStandaloneAuthZClient]
  match e.provideStandaloneAuthZClient with
  | some err => ⟨s, .returned (some err), ev1⟩
  | none =>
  let ev2 := ev1 ++ [.newSearchOptions]
  match e.newSearchOptions with
  | some err => ⟨s, .returned (some err), ev2⟩
  | none =>
  let ev3 := ev2 ++ [.println "CALLING NEW SEARCH SERVR", .newResourceSearchServer]
  match e.newResourceSearchServer with
  | some err => ⟨s, .returned (some err), ev3⟩
  | none =>
  let ev4 := ev3 ++ [.provideService]
  let s1 : searchService := { s with handler := e.provideService.1 }
  match e.provideService.2 with
  | some err => ⟨s1, .returned (some err), ev4⟩
  | none =>
  let ev5 := ev4 ++ [.provideHealthService]
  match e.provideHealthService with
  | some err => ⟨s1, .returned (some err), ev5⟩
  | none =>
  match s1.handler with
  | none => ⟨s1, .panicked "nil pointer dereference", ev5⟩
  | some _ =>
  -- register reflection service
  let ev6 := ev5 ++ [.registerServers, .provideReflectionService]
  match e.provideReflectionService with
  | some err => ⟨s1, .returned (some err), ev6⟩
  | none => startingRing s1 e ev6

/-- The case chosen by the `select` statement of `running`, with the value
received: from `s.stoppedCh`, from `s.subservicesWatcher.Chan()`, or
`ctx.Done()`. -/
inductive Selected where
  | stoppedCh (err : Option Error)
  | subservicesWatcher (err : Option Error)
  | ctxDone
  deriving DecidableEq, Repr

/-- Whether a case of the `select` of `running` can be chosen at all: a receive
from a nil channel blocks forever. -/
def selectable (s : searchService) : Selected → Bool
  | .stoppedCh _ => s.stoppedCh.isSome
  | .subservicesWatcher _ => true
  | .ctxDone => true

/-- The statement `close(ch)`: it panics on a nil channel and on a closed one. -/
def closeChan : Option Chan → Except String Chan
  | none => .error "close of nil channel"
  | some ch => if ch.closed then .error "close of closed channel" else .ok { ch with closed := true }

/-- The method `searchService.running`, given the case its `select` chooses. -/
def running (s : searchService) : Selected → ServiceEffect
  | .stoppedCh err =>
    match err with
    | some e => if !e.isCanceled then ⟨s, .returned (some e), []⟩ else ⟨s, .returned none, []⟩
    | none => ⟨s, .returned none, []⟩
  | .subservicesWatcher err => ⟨s, .returned (some (errorfW "subservice failure: " err)), []⟩
  | .ctxDone =>
    match closeChan s.stopCh with
    | .error msg => ⟨s, .panicked msg, []⟩
    | .ok ch => ⟨{ s with stopCh := some ch }, .returned none, [.closeStopCh]⟩

end searchService

/-! ## Sequences of calls on one facade -/

/-- A call of one of the four facade methods. -/
inductive Call where
  | Init
  | Stop
  | Search (req : ResourceSearchRequest)
  | GetStats (req : ResourceStatsRequest)
  deriving DecidableEq, Repr

/-- The value a facade method returned: the `error` of `Init`/`Stop`, or the
result pair of `Search` or of `GetStats`. -/
inductive Returned where
  | error (err : Option Error)
  | search (ret : Option ResourceSearchResponse × Option Error)
  | stats (ret : Option ResourceStatsResponse × Option Error)
  deriving DecidableEq, Repr

/-- The `error` component of what was returned. -/
def Returned.err : Returned → Option Error
  | .error err => err
  | .search ret => ret.2
  | .stats ret => ret.2

/-- What a caller and the collaborators see of one call: the call, what the
collaborators would answer during it, the value returned, and the collaborator
calls made. -/
structure Observed where
  call : Call
  world : Collaborators
  ret : Returned
  events : List Event

/-- The `error` a call returned. -/
def Observed.err (o : Observed) : Option Error := o.ret.err

/-- One call on the facade: the facade afterwards and what was observed. -/
def step (s : searchServer) (c : Call) (w : Collaborators) : searchServer × Observed :=
  match c with
  | .Init => let r := s.Init w; (r.state, ⟨c, w, .error r.ret, r.events⟩)
  | .Stop => let r := s.Stop w; (r.state, ⟨c, w, .error r.ret, r.events⟩)
  | .Search req => let r := s.Search w req; (r.state, ⟨c, w, .search r.ret, r.events⟩)
  | .GetStats req => let r := s.GetStats w req; (r.state, ⟨c, w, .stats r.ret, r.events⟩)

/-- The calls of the list made one after the other on the same facade. -/
def run (s : searchServer) : List (Call × Collaborators) → List Observed
  | [] => []
  | (c, w) :: rest => (step s c w).2 :: run (step s c w).1 rest

/-- N calls of `Init`, the k-th with the collaborators answering as `ws[k]`. -/
def initCalls (ws : List Collaborators) : List (Call × Collaborators) :=
  ws.map fun w => (Call.Init, w)

/-- All collaborator calls made during the observed calls, in order. -/
def allEvents : List Observed → List Event
  | [] => []
  | o :: rest => o.events ++ allEvents rest

/-- The errors "service is stopped" / "service stopeed with error: ..." that
`Stop` leaves in `initErr`. -/
def isStoppedError : Error → Bool
  | .new msg => msg == "service is stopped"
  | .wrapped msg _ => msg == "service stopeed with error: "
  | .canceled => false

/-! ## Concrete facades and collaborators used in the examples -/

/-- A storage backend that also implements the stats service. -/
def exBackend : StorageBackend := ⟨1, false, true⟩

/-- A fresh facade with lifecycle hooks and an index subsystem. -/
def exServer : searchServer :=
  { tracer := Tracer.noop "resource-server", backend := exBackend, blob := none,
    search := some ⟨7⟩, diagnostics := DiagnosticsServer.noopService,
    access := AccessClient.fixed true, lifecycle := some ⟨3⟩, now := NowFunc.wallClockMillis,
    cancelled := false, once := false, initErr := none, maxPageSizeBytes := 2097152 }

/-- A fresh facade with lifecycle hooks, no index subsystem and a stats-capable
backend. -/
def exServerNoIndex : searchServer := { exServer with search := none }

/-- Collaborators that all succeed. -/
def exOk : Collaborators :=
  { lifecycleInit := none, lifecycleStop := none, searchInit := none,
    searchSearch := fun req => (some ⟨req.id⟩, none),
    searchGetStats := fun req => (some ⟨req.id⟩, none),
    backendGetStats := fun req => (some ⟨req.id + 100⟩, none) }

/-- Collaborators whose lifecycle `Init` hook fails; the others succeed. -/
def exInitFails : Collaborators :=
  { exOk with lifecycleInit := some (Error.new "hook failed") }

/-- Collaborators whose lifecycle `Stop` hook fails; the others succeed. -/
def exStopFails : Collaborators :=
  { exOk with lifecycleStop := some (Error.new "hook failed") }

/-- Options without a storage backend; a blob URL, resources and lifecycle hooks
are configured. -/
def exOptsNoBackend : ResourceSearchServerOptions :=
  { Tracer := none, Backend := none, Blob := ⟨"file:///tmp/blobs", none⟩,
    Search := ⟨some ⟨1⟩, 4, 0, 1000, 0⟩, Diagnostics := none, AccessClient := none,
    Lifecycle := some ⟨3⟩, Now := none, MaxPageSizeBytes := 0 }

/-- Construction helpers that all succeed. -/
def exConstruction : Construction :=
  { openBlobBucket := fun _ => none, newCDKBlobSupport := fun _ => none,
    newSearchSupport := .ok ⟨7⟩ }

/-- A service wrapper with sharding enabled, as the constructor leaves it when
sharding is on: subservices, a made `stopCh`, a ring lifecycler. -/
def exService : searchService :=
  { hasSubservices := true, cfg := ⟨true⟩, stopCh := some ⟨false⟩, stoppedCh := none,
    handler := none, ringLifecycler := some ⟨"search-1", true⟩ }

/-- A start-up in which every step succeeds. -/
def exStartOk : StartingEnv :=
  { startManagerAndAwaitHealthy := none, provideStandaloneAuthZClient := none,
    newSearchOptions := none, newResourceSearchServer := none,
    provideService := (some ⟨1⟩, none), provideHealthService := none,
    provideReflectionService := none, waitInstanceState := none, changeState := none }

/-- A start-up in which waiting for the JOINING state times out. -/
def exStartJoinTimeout : StartingEnv :=
  { exStartOk with waitInstanceState := some (Error.new "context deadline exceeded") }

/-- A start-up in which the change to ACTIVE fails. -/
def exStartActiveFails : StartingEnv :=
  { exStartOk with changeState := some (Error.new "kv store unavailable") }

/-! ## The constructor of the service wrapper -/

/-- What the functions called by `ProvideUnifiedSearchGrpcService` return if they
are called: `kv.NewClient`, `toLifecyclerConfig`, `ring.NewBasicLifecycler`
(the lifecycler as it is right after construction) and `services.NewManager`. -/
structure ProvideEnv where
  newClient : Option Error
  toLifecyclerConfig : Option Error
  newBasicLifecycler : Except Error BasicLifecycler
  newManager : Option Error

/-- The method `SetKeepInstanceInTheRingOnShutdown` of the lifecycler. -/
def BasicLifecycler.SetKeepInstanceInTheRingOnShutdown (l : BasicLifecycler) (enabled : Bool) :
    BasicLifecycler :=
  { l with keepInstanceInTheRingOnShutdown := enabled }

/-- The block `if cfg.EnableSharding` of `ProvideUnifiedSearchGrpcService`: the
service with its ring lifecycler and the `subservices` slice (its elements are
lifecyclers), or the error returned early. -/
def provideSharding (s : searchService) (e : ProvideEnv) :
    Except Error (searchService × List BasicLifecycler) :=
  match e.newClient with
  | some err => .error (errorfS "failed to create KV store client: " err)
  | none =>
    match e.toLifecyclerConfig with
    | some err => .error (errorfS "failed to initialize storage-ring lifecycler config: " err)
    | none =>
      match e.newBasicLifecycler with
      | .error err => .error (errorfS "failed to initialize storage-ring lifecycler: " err)
      | .ok lfc =>
        let lfc1 := lfc.SetKeepInstanceInTheRingOnShutdown true
        .ok ({ s with ringLifecycler := some lfc1 }, [lfc1])

/-- The function `ProvideUnifiedSearchGrpcService`: the struct literal sets
`stopCh: make(chan struct{})` and has no entry for `stoppedCh`, `handler`,
`ringLifecycler` or `hasSubservices`, which therefore start as zero values. -/
def ProvideUnifiedSearchGrpcService (cfg : Cfg) (e : ProvideEnv) : Except Error searchService :=
  let s : searchService :=
    { hasSubservices := false, cfg := cfg, stopCh := some ⟨false⟩, stoppedCh := none,
      handler := none, ringLifecycler := none }
  let sharded : Except Error (searchService × List BasicLifecycler) :=
    if cfg.EnableSharding then provideSharding s e else .ok (s, [])
  match sharded with
  | .error err => .error err
  | .ok (s1, subservices) =>
    if subservices.length > 0 then
      match e.newManager with
      | some err => .error (Error.wrapped "failed to create subservices manager: " err)
      | none => .ok { s1 with hasSubservices := true }
    else
      .ok s1

/-- The goroutine started by `starting`, once `s.handler.Run(ctx)` has returned
`err`: it sends `err` on `s.stoppedCh`.  The result is the case of the `select`
of `running` that this send makes ready, or `none` when the send blocks
forever, as a send on a nil channel does. -/
def searchService.reportStopped (s : searchService) (err : Option Error) : Option Selected :=
  match s.stoppedCh with
  | none => none
  | some _ => some (.stoppedCh err)

/-- A construction in which every step succeeds; the lifecycler comes out of
`ring.NewBasicLifecycler` with the flag unset. -/
def exProvideOk : ProvideEnv :=
  { newClient := none, toLifecyclerConfig := none,
    newBasicLifecycler := .ok ⟨"search-1", false⟩, newManager := none }

/-- The service `ProvideUnifiedSearchGrpcService` returns for sharding enabled
and `exProvideOk`. -/
def exProvided : searchService :=
  { hasSubservices := true, cfg := ⟨true⟩, stopCh := some ⟨false⟩, stoppedCh := none,
    handler := none, ringLifecycler := some ⟨"search-1", true⟩ }

/-! ## Go strings

Go strings are modelled by Lean strings (sequences of Unicode code points), so
the model covers valid UTF-8 inputs. -/

/-- The function `unicode.IsSpace`: the Unicode White_Space code points. -/
def unicodeIsSpace (c : Char) : Bool :=
  let n := c.toNat
  (9 ≤ n && n ≤ 13) || n == 0x20 || n == 0x85 || n == 0xA0 || n == 0x1680 ||
    (0x2000 ≤ n && n ≤ 0x200A) || n == 0x2028 || n == 0x2029 || n == 0x202F ||
    n == 0x205F || n == 0x3000

/-- The pieces of a rune sequence between the occurrences of `sep`, in order
(always at least one piece). -/
def splitRunes (sep : Char) : List Char → List (List Char)
  | [] => [[]]
  | c :: cs =>
    if c = sep then [] :: splitRunes sep cs
    else
      match splitRunes sep cs with
      | [] => [[c]]
      | piece :: pieces => (c :: piece) :: pieces

/-- The function `strings.Split(s, sep)` for a one-rune separator. -/
def stringsSplit (s : String) (sep : Char) : List String :=
  (splitRunes sep s.data).map String.mk

/-- The function `strings.TrimSpace`: leading and trailing white space removed. -/
def stringsTrimSpace (s : String) : String :=
  ⟨((s.data.dropWhile unicodeIsSpace).reverse.dropWhile unicodeIsSpace).reverse⟩

/-- The function `strings.ToLower`, which maps every rune with `unicode.ToLower`;
that rune map is the argument `toLower`. -/
def stringsToLower (toLower : Char → Char) (s : String) : String :=
  ⟨s.data.map toLower⟩

/-! ## Plugin action strings (`pluginutils/actions.go`) -/

/-- The loop of `ParseActions`: `result` after ranging over `parts`. -/
def parseActionsLoop (result : List String) : List String → List String
  | [] => result
  | action :: parts =>
    let trimmed := stringsTrimSpace action
    if trimmed ≠ "" then parseActionsLoop (result ++ [trimmed]) parts
    else parseActionsLoop result parts

/-- The function `ParseActions`.  The returned Go slice is `none` when it is nil
and `some l` when it is a non-nil slice with the elements `l`. -/
def ParseActions (actions : String) : Option (List String) :=
  if actions = "" then none
  else
    let parts := stringsSplit actions ','
    some (parseActionsLoop [] parts)

/-- The elements of a Go slice (`nil` has none). -/
def sliceElems (slice : Option (List String)) : List String :=
  match slice with
  | none => []
  | some l => l

/-- The list the documentation of `ParseActions` describes: split at every comma,
trim each piece, drop the pieces that are empty after trimming. -/
def parseActionsSpec (s : String) : List String :=
  ((stringsSplit s ',').map stringsTrimSpace).filter (fun piece => piece ≠ "")

/-- The permissions of a user, `map[string][]string`: the scopes by action. -/
abbrev Permissions := List (String × List String)

/-- An `ac.Evaluator`, as far as it is used: its method `Evaluate`. -/
structure Evaluator where
  Evaluate : Permissions → Bool

/-- An `ac.AccessControl`, as far as it is used: what `GetUserPermissions(nil, nil)`
returns. -/
structure AccessControl where
  GetUserPermissions : Permissions

/-- The loop of `HasAnyAction` over the action list. -/
def hasAnyLoop (EvalPermission : String → Evaluator) (permissions : Permissions) :
    List String → Bool
  | [] => false
  | action :: rest =>
    -- Create a simple evaluator for each action
    let singleEval := EvalPermission action
    if singleEval.Evaluate permissions then true
    else hasAnyLoop EvalPermission permissions rest

/-- The function `HasAnyAction`; `EvalPermission` is `ac.EvalPermission`. -/
def HasAnyAction (EvalPermission : String → Evaluator) (accessControl : AccessControl)
    (evaluator : Evaluator) (actions : String) : Bool :=
  if actions = "" then true
  else
    let actionList := sliceElems (ParseActions actions)
    if actionList.length = 0 then true
    -- If only one action, use the existing evaluator directly
    else if actionList.length = 1 then evaluator.Evaluate accessControl.GetUserPermissions
    else
      -- For multiple actions, check if user has any of them
      let permissions := accessControl.GetUserPermissions
      hasAnyLoop EvalPermission permissions actionList

/-- The loop of `HasAllActions` over the action list. -/
def hasAllLoop (EvalPermission : String → Evaluator) (permissions : Permissions) :
    List String → Bool
  | [] => true
  | action :: rest =>
    -- Create a simple evaluator for each action
    let singleEval := EvalPermission action
    if !singleEval.Evaluate permissions then false
    else hasAllLoop EvalPermission permissions rest

/-- The function `HasAllActions`; `EvalPermission` is `ac.EvalPermission`. -/
def HasAllActions (EvalPermission : String → Evaluator) (accessControl : AccessControl)
    (evaluator : Evaluator) (actions : String) : Bool :=
  if actions = "" then true
  else
    let actionList := sliceElems (ParseActions actions)
    if actionList.length = 0 then true
    -- If only one action, use the existing evaluator directly
    else if actionList.length = 1 then evaluator.Evaluate accessControl.GetUserPermissions
    else
      -- For multiple actions, check if user has all of them
      let permissions := accessControl.GetUserPermissions
      hasAllLoop EvalPermission permissions actionList

/-- A permission check by action name: the user has some entry for the action. -/
def exEvalPermission (action : String) : Evaluator :=
  ⟨fun permissions => permissions.any fun entry => entry.1 == action⟩

/-- An access-control state in which the user has the actions `a` and `b`. -/
def exAccessControl : AccessControl := ⟨[("a", []), ("b", [])]⟩

/-! ## Lazy loading of alert-rule fields (`ngalert/api/lazy_loading.go`) -/

/-- The struct `FieldSelection`. -/
structure FieldSelection where
  IncludeData : Bool
  IncludeAnnotations : Bool
  IncludeLabels : Bool
  IncludeNotificationSettings : Bool
  IncludeMetadata : Bool
  deriving DecidableEq, Repr

/-- The function `DefaultFieldSelection` (all fields included). -/
def DefaultFieldSelection : FieldSelection :=
  { IncludeData := true, IncludeAnnotations := true, IncludeLabels := true,
    IncludeNotificationSettings := true, IncludeMetadata := true }

/-- The function `MinimalFieldSelection` (only core fields). -/
def MinimalFieldSelection : FieldSelection :=
  { IncludeData := false, IncludeAnnotations := false, IncludeLabels := false,
    IncludeNotificationSettings := false, IncludeMetadata := false }

/-- The type `url.Values`, a `map[string][]string`: the values by key (none for
an absent key). -/
structure Values where
  entries : String → List String

/-- The method `url.Values.Get`: the first value of the key, or the empty string. -/
def Values.Get (v : Values) (key : String) : String :=
  match v.entries key with
  | [] => ""
  | value :: _ => value

/-- The `switch field` of `ParseFieldSelection`. -/
def selectField (selection : FieldSelection) (field : String) : FieldSelection :=
  if field = "data" ∨ field = "queries" then
    { selection with IncludeData := true }
  else if field = "annotations" then
    { selection with IncludeAnnotations := true }
  else if field = "labels" then
    { selection with IncludeLabels := true }
  else if field = "notification" ∨ field = "notifications" ∨ field = "notification_settings" then
    { selection with IncludeNotificationSettings := true }
  else if field = "metadata" then
    { selection with IncludeMetadata := true }
  else
    selection

/-- The loop of `ParseFieldSelection` over `fields`. -/
def parseFieldsLoop (toLower : Char → Char) (selection : FieldSelection) :
    List String → FieldSelection
  | [] => selection
  | field :: fields =>
    parseFieldsLoop toLower
      (selectField selection (stringsTrimSpace (stringsToLower toLower field))) fields

/-- The function `ParseFieldSelection`; `toLower` is the rune map
`unicode.ToLower` behind `strings.ToLower`. -/
def ParseFieldSelection (toLower : Char → Char) (query : Values) : FieldSelection :=
  -- Check for "fields" parameter
  let fieldsParam := stringsToLower toLower (query.Get "fields")
  if fieldsParam = "minimal" ∨ fieldsParam = "core" then MinimalFieldSelection
  else if fieldsParam = "all" ∨ fieldsParam = "" then DefaultFieldSelection
  else
    -- Custom field selection
    let fields := stringsSplit fieldsParam ','
    parseFieldsLoop toLower MinimalFieldSelection fields

/-- The comma-separated, whitespace-trimmed tokens of a string. -/
def fieldTokens (f : String) : List String :=
  (stringsSplit f ',').map stringsTrimSpace

/-- An element of the slice `AlertRule.Data` (`ngmodels.AlertQuery`). -/
structure AlertQuery where
  RefID : String
  deriving DecidableEq, Repr

/-- An element of the slice `AlertRule.NotificationSettings`. -/
structure NotificationSettings where
  Receiver : String
  deriving DecidableEq, Repr

/-- The struct `ngmodels.AlertRuleMetadata`; its zero value has every field unset. -/
structure AlertRuleMetadata where
  SimplifiedQueryAndExpressionsSection : Bool
  PrometheusStyleRule : Option String
  deriving DecidableEq, Repr

/-- The struct `ngmodels.AlertRule`: the six fields the code under study names
(`Data`, `Annotations`, `Labels`, `NotificationSettings`, `Metadata`, `Updated`)
and core fields of the rule.  A nil slice or map is `none`; `Updated` is the
instant of a `time.Time`, in nanoseconds after the zero time. -/
structure AlertRule where
  ID : Int
  OrgID : Int
  UID : String
  Title : String
  Condition : String
  NamespaceUID : String
  RuleGroup : String
  IntervalSeconds : Int
  Version : Int
  Updated : Int
  IsPaused : Bool
  Data : Option (List AlertQuery)
  Annotations : Option (List (String × String))
  Labels : Option (List (String × String))
  NotificationSettings : Option (List Grafana.NotificationSettings)
  Metadata : AlertRuleMetadata
  deriving DecidableEq, Repr

/-- The function `ApplyFieldSelection`: the rule after the call. -/
def ApplyFieldSelection (rule : AlertRule) (selection : FieldSelection) : AlertRule :=
  let rule := if !selection.IncludeData then { rule with Data := none } else rule
  let rule := if !selection.IncludeAnnotations then { rule with Annotations := none } else rule
  let rule := if !selection.IncludeLabels then { rule with Labels := none } else rule
  let rule :=
    if !selection.IncludeNotificationSettings then { rule with NotificationSettings := none }
    else rule
  let rule :=
    if !selection.IncludeMetadata then { rule with Metadata := ⟨false, none⟩ } else rule
  rule

/-- A query with a `fields` parameter. -/
def exQuery (fields : String) : Values :=
  ⟨fun key => if key = "fields" then [fields] else []⟩

/-- An alert rule with all optional fields set. -/
def exRule : AlertRule :=
  { ID := 1, OrgID := 1, UID := "rule-1", Title := "High CPU", Condition := "B",
    NamespaceUID := "folder-1", RuleGroup := "group-1", IntervalSeconds := 60, Version := 3,
    Updated := 1700000000, IsPaused := false, Data := some [⟨"A"⟩, ⟨"B"⟩],
    Annotations := some [("summary", "cpu")], Labels := some [("team", "ops")],
    NotificationSettings := some [⟨"pager"⟩], Metadata := ⟨true, some "prom"⟩ }

/-! ## ETag caching of rule responses (`ngalert/api/cache_etag.go`) -/

/-- The struct `ETagCacheConfig`. -/
structure ETagCacheConfig where
  Enabled : Bool
  TTLSeconds : Int
  deriving DecidableEq, Repr

/-- An `http.Header`: the values by header name.  Header names are compared as
written (the code uses the same constant for setting and reading a header). -/
structure Header where
  entries : List (String × List String)
  deriving DecidableEq, Repr

/-- The method `http.Header.Get`: the first value of the header, or the empty string. -/
def Header.Get (h : Header) (key : String) : String :=
  match h.entries.find? (fun entry => entry.1 == key) with
  | some (_, value :: _) => value
  | _ => ""

/-- The method `http.Header.Set`: the header gets the single value `value`. -/
def Header.Set (h : Header) (key value : String) : Header :=
  ⟨(key, [value]) :: h.entries.filter (fun entry => entry.1 != key)⟩

/-- The response writer `c.Resp`: its header map and the status codes passed to
`WriteHeader`, in order. -/
structure ResponseWriter where
  header : Header
  writeHeaderCalls : List Nat
  deriving DecidableEq, Repr

/-- A `contextmodel.ReqContext`, as far as it is used: the header of the request
`c.Req` and the response writer `c.Resp`. -/
structure ReqContext where
  ReqHeader : Header
  Resp : ResponseWriter
  deriving DecidableEq, Repr

/-- The standard-library computations behind `generateETagFromRules`:
`t.Format(time.RFC3339Nano)` of an instant and the lower-case hex digits of
the SHA-256 sum of the bytes written to the hash. -/
structure ETagLib where
  formatRFC3339Nano : Int → String
  sha256Hex : String → String

/-- The header name for cache control. -/
def CacheControlHeader : String := "Cache-Control"

/-- The header name for the ETag. -/
def ETagHeader : String := "ETag"

/-- The header name for If-None-Match. -/
def IfNoneMatchHeader : String := "If-None-Match"

/-- The constant `http.StatusNotModified`. -/
def StatusNotModified : Nat := 304

/-- The loop of `generateETagFromRules` that finds the most recent update time. -/
def maxUpdateLoop (maxUpdate : Int) : List AlertRule → Int
  | [] => maxUpdate
  | rule :: rules =>
    if rule.Updated > maxUpdate then maxUpdateLoop rule.Updated rules
    else maxUpdateLoop maxUpdate rules

/-- The function `generateETagFromRules`. -/
def generateETagFromRules (lib : ETagLib) (rules : List AlertRule) : String :=
  if rules.length = 0 then "\"empty\""
  else
    -- Find the most recent update time
    let maxUpdate := maxUpdateLoop 0 rules
    -- Create a hash from the update time and rule count
    "\"" ++ lib.sha256Hex (lib.formatRFC3339Nano maxUpdate ++ toString rules.length) ++ "\""

/-- The function `SetCacheHeaders`: the context after the call. -/
def SetCacheHeaders (c : ReqContext) (etag : String) (ttlSeconds : Int) : ReqContext :=
  let h1 := c.Resp.header.Set ETagHeader etag
  let h2 := h1.Set CacheControlHeader ("private, max-age=" ++ toString ttlSeconds)
  { c with Resp := { c.Resp with header := h2 } }

/-- The function `CheckETagMatch`. -/
def CheckETagMatch (c : ReqContext) (currentETag : String) : Bool :=
  let clientETag := c.ReqHeader.Get IfNoneMatchHeader
  clientETag != "" && clientETag == currentETag

/-- The function `HandleCachedResponse`: the context after the call and the
returned boolean. -/
def HandleCachedResponse (lib : ETagLib) (c : ReqContext) (rules : List AlertRule)
    (config : ETagCacheConfig) : ReqContext × Bool :=
  if !config.Enabled then (c, false)
  else
    let etag := generateETagFromRules lib rules
    -- Check if client's cached version is still valid
    if CheckETagMatch c etag then
      ({ c with Resp := { c.Resp with
          writeHeaderCalls := c.Resp.writeHeaderCalls ++ [StatusNotModified] } }, true)
    else
      -- Set cache headers for the response
      (SetCacheHeaders c etag config.TTLSeconds, false)

/-- A stand-in for the standard library: instants printed as numbers, and a
"hash" that keeps its input. -/
def exETagLib : ETagLib := ⟨fun t => toString t, fun bytes => bytes⟩

/-- A request whose `If-None-Match` is the ETag of `[exRule]` under `exETagLib`. -/
def exCachedRequest : ReqContext :=
  ⟨⟨[("If-None-Match", ["\"17000000001\""])]⟩, ⟨⟨[]⟩, []⟩⟩

/-! ## Audit policy (`apiserver/auditing/policy_rule_evaluator.go`) -/

/-- The audit levels of `k8s.io/apiserver/pkg/apis/audit`. -/
inductive Level where
  | None
  | Metadata
  | Request
  | RequestResponse
  deriving DecidableEq, Repr

/-- The audit stages of `k8s.io/apiserver/pkg/apis/audit`. -/
inductive Stage where
  | RequestReceived
  | ResponseStarted
  | ResponseComplete
  | Panic
  deriving DecidableEq, Repr

/-- The struct `audit.RequestAuditConfig`; a field left out of a struct literal
has its zero value (empty slice, false). -/
structure RequestAuditConfig where
  Level : Grafana.Level
  OmitStages : List Stage
  OmitManagedFields : Bool
  deriving DecidableEq, Repr

/-- The `authorizer.Attributes` of a request, as far as they are read. -/
structure Attributes where
  IsResourceRequest : Bool
  Verb : String
  APIGroup : String
  APIVersion : String
  Resource : String
  deriving DecidableEq, Repr

/-- The method `defaultGrafanaPolicyRuleEvaluator.EvaluatePolicyRule`; `VerbWatch`
is the constant `utils.VerbWatch`. -/
def EvaluatePolicyRule (VerbWatch : String) (attrs : Attributes) : RequestAuditConfig :=
  -- Skip non-resource and watch requests otherwise it is too noisy.
  if !attrs.IsResourceRequest || attrs.Verb == VerbWatch then
    { Level := Level.None, OmitStages := [], OmitManagedFields := false }
  else
    { Level := Level.Metadata,
      OmitStages := [Stage.RequestReceived, Stage.ResponseStarted, Stage.Panic],
      OmitManagedFields := true }

/-! ## Resource permissions through the k8s API (`resourcepermissions/api_adapter.go`) -/

/-- The options of the permission service, as far as they are read. -/
structure Options where
  Resource : String
  deriving DecidableEq, Repr

/-- The permission service `a.service`. -/
structure Service where
  options : Options
  deriving DecidableEq, Repr

/-- The struct `api`; a nil `restConfigProvider` is `none`. -/
structure api where
  restConfigProvider : Option Nat
  service : Service
  deriving DecidableEq, Repr

/-- The function `fmt.Sprintf("%s.%s.%s", a, b, c)`. -/
def sprintfDotted (a b c : String) : String :=
  a ++ "." ++ b ++ "." ++ c

/-- The outcome of the `Get` on the dynamic client: the object, or an error with
the answer of `k8serrors.IsNotFound` for it. -/
inductive K8sGet where
  | object (id : Nat)
  | failed (err : Error) (isNotFound : Bool)
  deriving DecidableEq, Repr

/-- A permission entry of the response (`resourcePermissionDTO`). -/
structure resourcePermissionDTO where
  id : Nat
  deriving DecidableEq, Repr

/-- A call made by `getResourcePermissionsFromK8s`; `get` carries the namespace and
the name of the resource permission looked up. -/
inductive K8sCall where
  | getRestConfig
  | newForConfig
  | get (ns : String) (name : String)
  | convertK8sResourcePermissionToDTO (id : Nat)
  deriving DecidableEq, Repr

/-- What the collaborators of `getResourcePermissionsFromK8s` return if called;
`convert` is the result of `a.convertK8sResourcePermissionToDTO` on the object
found. -/
structure K8sEnv where
  getRestConfig : Option Error
  newForConfig : Option Error
  get : String → String → K8sGet
  convert : Nat → Option (List resourcePermissionDTO) × Option Error

/-- The outcome of `getResourcePermissionsFromK8s`: the Go result pair and the
calls made, in order. -/
structure K8sOutcome where
  ret : Option (List resourcePermissionDTO) × Option Error
  calls : List K8sCall

namespace api

/-- The name `resourcePermName` that `getResourcePermissionsFromK8s` builds. -/
def resourcePermName (a : api) (resourceID : String) : String :=
  sprintfDotted a.service.options.Resource a.service.options.Resource resourceID

/-- The method `api.getResourcePermissionsFromK8s`. -/
def getResourcePermissionsFromK8s (a : api) (e : K8sEnv) (ns : String) (resourceID : String) :
    K8sOutcome :=
  match a.restConfigProvider with
  | none => ⟨(none, some (Error.new "k8s rest config provider not available")), []⟩
  | some _ =>
    match e.getRestConfig with
    | some err =>
      ⟨(none, some (Error.wrapped "failed to get rest config: " err)), [.getRestConfig]⟩
    | none =>
      match e.newForConfig with
      | some err =>
        ⟨(none, some (Error.wrapped "failed to create dynamic client: " err)),
          [.getRestConfig, .newForConfig]⟩
      | none =>
        let resourcePermName := a.resourcePermName resourceID
        let calls := [K8sCall.getRestConfig, .newForConfig, .get ns resourcePermName]
        match e.get ns resourcePermName with
        | .failed err isNotFound =>
          if isNotFound then
            -- Return empty list if not found (no permissions set)
            ⟨(some [], none), calls⟩
          else
            ⟨(none, some (Error.wrapped "failed to get resource permission from k8s: " err)),
              calls⟩
        | .object id => ⟨e.convert id, calls ++ [.convertK8sResourcePermissionToDTO id]⟩

/-- The method `api.buildResourcePermissionName`. -/
def buildResourcePermissionName (a : api) (resourceID : String) : String :=
  let apiGroup :=
    if a.service.options.Resource = "folders" then "folder.grafana.app"
    else if a.service.options.Resource = "dashboards" then "dashboard.grafana.app"
    else a.service.options.Resource ++ ".grafana.app"
  sprintfDotted apiGroup a.service.options.Resource resourceID

end api

/-- The permission API of the resource `folders`. -/
def exFoldersApi : api := ⟨some 1, ⟨⟨"folders"⟩⟩⟩

/-- A k8s API in which the resource permission of a folder is stored under the
documented name only. -/
def exK8s : K8sEnv :=
  { getRestConfig := none, newForConfig := none,
    get := fun _ name =>
      if name = "folder.grafana.app.folders.folder-abc123" then .object 1
      else .failed (Error.new "not found") true,
    convert := fun id => (some [⟨id⟩], none) }

/-! ## Plugin manifests as OpenAPI extensions (`registry/apis/datasource/manifest`) -/

/-- An `app.VersionSchema` (identified by a number). -/
structure VersionSchema where
  id : Nat
  deriving DecidableEq, Repr

/-- A `spec.Schema` (identified by a number). -/
structure Schema where
  id : Nat
  deriving DecidableEq, Repr

/-- The struct `app.ManifestKindVersion`, as far as it is read; a nil `Schema` is
`none`. -/
structure ManifestKindVersion where
  Name : String
  Schema : Option VersionSchema
  deriving DecidableEq, Repr

/-- The struct `app.ManifestKind`, as far as it is read. -/
structure ManifestKind where
  Kind : String
  Scope : String
  Versions : List ManifestKindVersion
  deriving DecidableEq, Repr

/-- The struct `app.ManifestData`, as far as it is read. -/
structure ManifestData where
  AppName : String
  Group : String
  Kinds : List ManifestKind
  deriving DecidableEq, Repr

/-- The struct `datasourceV0.DataSourceOpenAPIExtension`, as far as it is written:
the map `Schemas` (`map[string]*spec.Schema`), as the list of its entries (one
entry per key). -/
structure DataSourceOpenAPIExtension where
  Schemas : List (String × Option Schema)
  deriving DecidableEq, Repr

/-- The map assignment `m[key] = value`. -/
def mapSet (m : List (String × Option Schema)) (key : String) (value : Option Schema) :
    List (String × Option Schema) :=
  (key, value) :: m.filter (fun entry => entry.1 != key)

/-- The function `strings.HasSuffix`. -/
def stringsHasSuffix (s suffix : String) : Bool :=
  suffix.data.isSuffixOf s.data

/-- What `versionSchema.AsKubeOpenAPI` returns if it is called: an error, or the
definitions map as the list of its entries in the order in which the `range`
over it visits them. -/
structure ManifestEnv where
  asKubeOpenAPI : VersionSchema → Except Error (List (String × Schema))

/-- The loop of `convertSchemaToOpenAPI` that finds the main schema. -/
def findMainSchema : List (String × Schema) → Option Schema
  | [] => none
  | (key, schema) :: definitions =>
    -- Skip the kind and list objects, look for the main schema
    if !stringsHasSuffix key ".TestKind" && !stringsHasSuffix key ".TestKindList" then
      -- Take the first non-kind, non-list schema we find
      some schema
    else findMainSchema definitions

/-- The method `ManifestConverter.convertSchemaToOpenAPI`. -/
def convertSchemaToOpenAPI (e : ManifestEnv) (versionSchema : Option VersionSchema) :
    Option Schema × Option Error :=
  match versionSchema with
  | none => (none, some (Error.new "version schema is nil"))
  | some vs =>
    match e.asKubeOpenAPI vs with
    | .error err =>
      (none, some (Error.wrapped "failed to convert schema using AsKubeOpenAPI: " err))
    | .ok definitions =>
      match findMainSchema definitions with
      | none => (none, some (Error.new "no main schema found in AsKubeOpenAPI result"))
      | some mainSchema => (some mainSchema, none)

/-- The inner loop of `ConvertManifestToOpenAPIExtension` over the versions of one
kind: the map `Schemas` afterwards, or the error returned. -/
def convertVersions (e : ManifestEnv) (kind : ManifestKind)
    (schemas : List (String × Option Schema)) : List ManifestKindVersion →
    Except Error (List (String × Option Schema))
  | [] => .ok schemas
  | version :: versions =>
    match version.Schema with
    | none => convertVersions e kind schemas versions
    | some _ =>
      -- Convert the schema to OpenAPI format
      match convertSchemaToOpenAPI e version.Schema with
      | (_, some err) =>
        .error (Error.wrapped
          ("failed to convert schema for kind " ++ kind.Kind ++ " version " ++ version.Name ++
            ": ") err)
      | (schema, none) =>
        -- Use a consistent naming scheme for the schema
        let schemaKey := kind.Kind ++ version.Name
        convertVersions e kind (mapSet schemas schemaKey schema) versions

/-- The outer loop of `ConvertManifestToOpenAPIExtension` over the kinds. -/
def convertKinds (e : ManifestEnv) (schemas : List (String × Option Schema)) :
    List ManifestKind → Except Error (List (String × Option Schema))
  | [] => .ok schemas
  | kind :: kinds =>
    match convertVersions e kind schemas kind.Versions with
    | .error err => .error err
    | .ok schemas1 => convertKinds e schemas1 kinds

/-- The method `ManifestConverter.ConvertManifestToOpenAPIExtension`. -/
def ConvertManifestToOpenAPIExtension (e : ManifestEnv) (manifestData : Option ManifestData) :
    Option DataSourceOpenAPIExtension × Option Error :=
  match manifestData with
  | none => (none, some (Error.new "manifest data is nil"))
  | some m =>
    match convertKinds e [] m.Kinds with
    | .error err => (none, some err)
    | .ok schemas => (some ⟨schemas⟩, none)

/-- The struct `pluginstore.Plugin`, as far as it is read; a nil `ManifestData` is
`none`. -/
structure Plugin where
  ID : String
  ManifestData : Option Grafana.ManifestData
  deriving DecidableEq, Repr

/-- The method `ManifestOpenAPIExtensionProvider.GetExtensionForPlugin`; a nil
`plugin` pointer is `none`. -/
def GetExtensionForPlugin (e : ManifestEnv) (plugin : Option Plugin) :
    Option DataSourceOpenAPIExtension × Option Error :=
  match plugin with
  | none => (none, some (Error.new "plugin is nil"))
  | some p =>
    -- Check if the plugin has manifest data
    match p.ManifestData with
    | none => (none, none)
    | some m =>
      -- Convert manifest to OpenAPI extension
      match ConvertManifestToOpenAPIExtension e (some m) with
      | (_, some err) =>
        (none, some (Error.wrapped "failed to convert manifest to OpenAPI extension: " err))
      | (extension, none) => (extension, none)

/-- The method `OpenAPIExtensionFactory.GetOpenAPIExtension`: it passes `&plugin`
to the provider. -/
def GetOpenAPIExtension (e : ManifestEnv) (plugin : Plugin) :
    Option DataSourceOpenAPIExtension × Option Error :=
  -- Try to get extension from manifest data
  match GetExtensionForPlugin e (some plugin) with
  | (_, some err) => (none, some (Error.wrapped "failed to get extension from manifest: " err))
  | (none, none) => (none, none)
  | (some extension, none) => (some extension, none)

/-- A schema conversion that yields a kind object, a list object and the main
schema for the schema 1, and fails for every other schema. -/
def exManifestEnv : ManifestEnv :=
  ⟨fun vs =>
    if vs.id = 1 then
      .ok [("test.v1.TestKind", ⟨10⟩), ("test.v1.TestKindList", ⟨11⟩), ("test.v1.Spec", ⟨12⟩)]
    else .error (Error.new "unsupported schema")⟩

/-- The manifest of `TestManifestConverter_ConvertManifestToOpenAPIExtension`: one
kind with one version whose schema is nil. -/
def exManifestNilSchema : ManifestData :=
  ⟨"test-datasource", "test-datasource.grafana.app",
    [⟨"DataSourceConfig", "Namespaced", [⟨"v1", none⟩]⟩]⟩

/-- The manifest of the test `..._EmptyKinds`. -/
def exManifestEmptyKinds : ManifestData :=
  ⟨"test-datasource", "test-datasource.grafana.app", []⟩

/-- A manifest with one version without a schema and one with the schema 1. -/
def exManifestMixed : ManifestData :=
  ⟨"test-datasource", "test-datasource.grafana.app",
    [⟨"DataSourceConfig", "Namespaced", [⟨"v1", none⟩, ⟨"v2", some ⟨1⟩⟩]⟩]⟩

/-- A manifest whose only schema cannot be converted. -/
def exManifestBroken : ManifestData :=
  ⟨"test-datasource", "test-datasource.grafana.app",
    [⟨"DataSourceConfig", "Namespaced", [⟨"v1", some ⟨2⟩⟩]⟩]⟩

/-! ## Authorization of receiver testing (`receivertesting/authorize.go`) -/

/-- The decisions of `k8s.io/apiserver/pkg/authorization/authorizer`. -/
inductive Decision where
  | DecisionDeny
  | DecisionAllow
  | DecisionNoOpinion
  deriving DecidableEq, Repr

/-- An access-control evaluator as `Authorize` builds it: `EvalPermission(action)`
or `EvalAny(evaluators...)`. -/
inductive AuthEvaluator where
  | EvalPermission (action : String)
  | EvalAny (evaluators : List AuthEvaluator)

/-- The requester `identity.GetRequester` finds in the context. -/
structure Requester where
  id : Nat
  deriving DecidableEq, Repr

/-- The surroundings of `Authorize`: the constants
`v0alpha1.ReceiverTestingResource`, `accesscontrol.ActionAlertingNotificationsWrite`
and `accesscontrol.ActionAlertingReceiversTest`, what `identity.GetRequester(ctx)`
returns, and what `ac.Evaluate(ctx, user, eval)` returns. -/
structure AuthorizeEnv where
  ReceiverTestingResource : String
  ActionAlertingNotificationsWrite : String
  ActionAlertingReceiversTest : String
  GetRequester : Except Error Requester
  Evaluate : Requester → AuthEvaluator → Bool × Option Error

/-- The function `receivertesting.Authorize`: the results `authorized`, `reason`
and `err`. -/
def Authorize (env : AuthorizeEnv) (attr : Attributes) : Decision × String × Option Error :=
  if attr.Resource ≠ env.ReceiverTestingResource then
    (Decision.DecisionNoOpinion, "", none)
  else
    match env.GetRequester with
    | .error err => (Decision.DecisionDeny, "valid user is required", some err)
    | .ok user =>
      let eval := AuthEvaluator.EvalAny
        [AuthEvaluator.EvalPermission env.ActionAlertingNotificationsWrite,
          AuthEvaluator.EvalPermission env.ActionAlertingReceiversTest]
      let (ok, err) := env.Evaluate user eval
      if ok then (Decision.DecisionAllow, "", none)
      else (Decision.DecisionAllow, "", err)

/-- A requester is found and the access-control evaluation returns false with no
error: the user has neither permission. -/
def exAuthorizeDenied : AuthorizeEnv :=
  { ReceiverTestingResource := "receivers/test",
    ActionAlertingNotificationsWrite := "alert.notifications:write",
    ActionAlertingReceiversTest := "alert.notifications.receivers:test",
    GetRequester := .ok ⟨7⟩,
    Evaluate := fun _ _ => (false, none) }

/-- A request on the receiver-testing resource. -/
def exReceiverTestingAttr : Attributes :=
  { IsResourceRequest := true, Verb := "create", APIGroup := "notifications.alerting.grafana.app",
    APIVersion := "v0alpha1", Resource := "receivers/test" }

/-! ## InfluxDB SQL queries (`tsdb/influxdb/handlers.go`) -/

/-- A `backend.DataQuery`, as far as it is read here. -/
structure DataQuery where
  RefID : String
  JSON : String
  deriving DecidableEq, Repr

/-- The values of `backend.Status` the handler uses; `unset` is the zero value and
`httpServiceUnavailable` is `http.StatusServiceUnavailable`. -/
inductive Status where
  | unset
  | StatusValidationFailed
  | StatusForbidden
  | StatusNotFound
  | StatusInternal
  | httpServiceUnavailable
  deriving DecidableEq, Repr

/-- The values of `backend.ErrorSource` the handler uses; `unset` is the zero value. -/
inductive ErrorSource where
  | unset
  | ErrorSourceDownstream
  deriving DecidableEq, Repr

/-- A `data.Frame`, as far as it is read: its number of rows. -/
structure Frame where
  id : Nat
  rows : Nat
  deriving DecidableEq, Repr

/-- The struct `backend.DataResponse`; a nil `Frames` is `none`. -/
structure DataResponse where
  Frames : Option (List Frame)
  Error : Option Grafana.Error
  Status : Grafana.Status
  ErrorSource : Grafana.ErrorSource
  deriving DecidableEq, Repr

/-- The function `backend.ErrDataResponse`. -/
def ErrDataResponse (status : Status) (message : String) : DataResponse :=
  { Frames := none, Error := some (Error.new message), Status := status,
    ErrorSource := ErrorSource.unset }

/-- The function `backend.ErrDataResponseWithSource`. -/
def ErrDataResponseWithSource (status : Status) (src : ErrorSource) (message : String) :
    DataResponse :=
  { Frames := none, Error := some (Error.new message), Status := status, ErrorSource := src }

/-- The gRPC status codes `errorFromGRPCResponse` distinguishes. -/
inductive Code where
  | InvalidArgument
  | PermissionDenied
  | NotFound
  | Unavailable
  | other (code : Nat)
  deriving DecidableEq, Repr

/-- The struct `backend.QueryDataResponse`: the map `Responses` by RefID, as the
list of its entries (one entry per key). -/
structure QueryDataResponse where
  Responses : List (String × DataResponse)
  deriving DecidableEq, Repr

/-- The map assignment `qd.Responses[refID] = response`. -/
def QueryDataResponse.set (qd : QueryDataResponse) (refID : String) (response : DataResponse) :
    QueryDataResponse :=
  ⟨(refID, response) :: qd.Responses.filter (fun entry => entry.1 != refID)⟩

/-- Whether the map `Responses` has an entry for the RefID. -/
def QueryDataResponse.has (qd : QueryDataResponse) (refID : String) : Bool :=
  qd.Responses.any (fun entry => entry.1 == refID)

/-- A `models.SQLQueryModel`, as far as it is read. -/
structure SQLQueryModel where
  RawSQL : String
  deriving DecidableEq, Repr

/-- What the collaborators of `HandleSQLQuery` return if they are called:
`query.NewSQLQuerier` (a nil error means a querier was created),
`models.NewSQLQueryModel`, `querier.Do` (the number identifies the result),
`flightsql.NewFrame` on that result, and `status.FromError` (`none` when the
error carries no gRPC status). -/
structure SQLEnv where
  NewSQLQuerier : Option Error
  NewSQLQueryModel : DataQuery → Except Error SQLQueryModel
  Do : String → Except Error Nat
  NewFrame : Nat → SQLQueryModel → Except Error Frame
  FromError : Error → Option Code

/-- The function `errorFromGRPCResponse`. -/
def errorFromGRPCResponse (env : SQLEnv) (err : Error) : DataResponse :=
  let errStr := "flightsql: " ++ err.text
  match env.FromError err with
  | none => ErrDataResponse Status.StatusInternal ("unexpected error: " ++ err.text)
  | some code =>
    match code with
    | .InvalidArgument =>
      ErrDataResponseWithSource Status.StatusValidationFailed ErrorSource.ErrorSourceDownstream
        errStr
    | .PermissionDenied =>
      ErrDataResponseWithSource Status.StatusForbidden ErrorSource.ErrorSourceDownstream errStr
    | .NotFound =>
      ErrDataResponseWithSource Status.StatusNotFound ErrorSource.ErrorSourceDownstream errStr
    | .Unavailable =>
      ErrDataResponseWithSource Status.httpServiceUnavailable ErrorSource.ErrorSourceDownstream
        errStr
    | .other _ => ErrDataResponse Status.StatusInternal ("flightsql: " ++ errStr)

/-- The loop of `HandleSQLQuery` over `req.Queries`: the response when the
function returns, be it from inside the loop or after it. -/
def handleSQLQueries (env : SQLEnv) (qd : QueryDataResponse) : List DataQuery → QueryDataResponse
  | [] => qd
  | q :: queries =>
    match env.NewSQLQueryModel q with
    | .error err =>
      handleSQLQueries env
        (qd.set q.RefID (ErrDataResponseWithSource Status.StatusValidationFailed
          ErrorSource.ErrorSourceDownstream ("flightsql: bad request: " ++ err.text)))
        queries
    | .ok qm =>
      match env.Do qm.RawSQL with
      | .error err =>
        -- return qd, nil
        qd.set q.RefID (errorFromGRPCResponse env err)
      | .ok result =>
        match env.NewFrame result qm with
        | .error err =>
          handleSQLQueries env
            (qd.set q.RefID (ErrDataResponseWithSource Status.StatusInternal
              ErrorSource.ErrorSourceDownstream
              ("flightsql: could not create frame: " ++ err.text)))
            queries
        | .ok frame =>
          if frame.rows = 0 then
            handleSQLQueries env
              (qd.set q.RefID ⟨some [], none, Status.unset, ErrorSource.unset⟩) queries
          else
            handleSQLQueries env
              (qd.set q.RefID ⟨some [frame], none, Status.unset, ErrorSource.unset⟩) queries

/-- The function `HandleSQLQuery` on the queries of the request: the Go result
pair.  `backend.NewQueryDataResponse()` has an empty, non-nil `Responses` map. -/
def HandleSQLQuery (env : SQLEnv) (queries : List DataQuery) :
    QueryDataResponse × Option Error :=
  let qd : QueryDataResponse := ⟨[]⟩
  match env.NewSQLQuerier with
  | some err => (qd, some err)
  | none => (handleSQLQueries env qd queries, none)

/-- A FlightSQL server on which the statement `select broken` fails with
`Unavailable` and every other statement returns one row. -/
def exSQLEnv : SQLEnv :=
  { NewSQLQuerier := none,
    NewSQLQueryModel := fun q => .ok ⟨q.JSON⟩,
    Do := fun sql => if sql = "select broken" then .error (Error.new "connection refused")
      else .ok 1,
    NewFrame := fun result _ => .ok ⟨result, 1⟩,
    FromError := fun _ => some Code.Unavailable }

/-- A request with the queries `A` (whose statement fails) and `B`. -/
def exSQLQueries : List DataQuery := [⟨"A", "select broken"⟩, ⟨"B", "select 1"⟩]

/-! ## The first `Init` of a facade

The struct `searchServer` is built in one place, `NewResourceSearchServer`,
which also makes the first call of `Init` on it. -/

/-- The facade `s` as `NewResourceSearchServer` has built it when it calls
`s.Init(ctx)`, with the collaborator calls made until then; `none` when the
constructor returns before that call (no backend, or the blob store or the
index subsystem could not be built). -/
def facadeBeforeInit (opts : ResourceSearchServerOptions) (c : Construction) :
    Option (searchServer × List Event) :=
  let tracer := match opts.Tracer with
    | some t => t
    | none => Tracer.noop "resource-server"
  match opts.Backend with
  | none => none
  | some backend =>
    let access := match opts.AccessClient with
      | some a => a
      | none => AccessClient.fixed true
    let diagnostics := match opts.Diagnostics with
      | some d => d
      | none => DiagnosticsServer.noopService
    let now := match opts.Now with
      | some n => n
      | none => NowFunc.wallClockMillis
    let maxPageSizeBytes : Int :=
      if opts.MaxPageSizeBytes ≤ 0 then 1024 * 1024 * 2 else opts.MaxPageSizeBytes
    match initBlobStorage opts backend c with
    | (.error _, _) => none
    | (.ok blobstore, ev1) =>
      let s : searchServer :=
        { tracer := tracer, backend := backend, blob := blobstore, search := none,
          diagnostics := diagnostics, access := access, lifecycle := opts.Lifecycle,
          now := now, cancelled := false, once := false, initErr := none,
          maxPageSizeBytes := maxPageSizeBytes }
      match opts.Search.Resources with
      | some _ =>
        match c.newSearchSupport with
        | .error _ => none
        | .ok search => some ({ s with search := some search }, ev1 ++ [Event.newSearchSupport])
      | none => some (s, ev1 ++ [])

/-- The calls a caller makes on what `NewResourceSearchServer` returned: the calls
of the list, one after the other, on the returned facade; when no facade was
returned there is nothing to call. -/
def callsOnBuilt (opts : ResourceSearchServerOptions) (c : Construction) (w : Collaborators)
    (cs : List (Call × Collaborators)) : List Observed :=
  match (NewResourceSearchServer opts c w).server with
  | none => []
  | some s => run s cs

/-- Options with a storage backend, resources and lifecycle hooks. -/
def exOpts : ResourceSearchServerOptions :=
  { Tracer := none, Backend := some exBackend, Blob := ⟨"", none⟩,
    Search := ⟨some ⟨1⟩, 4, 0, 1000, 0⟩, Diagnostics := none, AccessClient := none,
    Lifecycle := some ⟨3⟩, Now := none, MaxPageSizeBytes := 0 }

/-! ## Properties of the facade -/

theorem initBody_count_lifecycleInit (s : searchServer) (w : Collaborators) :
    (s.initBody w).2.count Event.lifecycleInit ≤ 1 := by
  unfold searchServer.initBody
  cases s.lifecycle <;> cases w.lifecycleInit <;> cases s.initErr <;> cases s.search <;>
    cases w.searchInit <;> simp

theorem initBody_count_searchInit (s : searchServer) (w : Collaborators) :
    (s.initBody w).2.count Event.searchInit ≤ 1 := by
  unfold searchServer.initBody
  cases s.lifecycle <;> cases w.lifecycleInit <;> cases s.initErr <;> cases s.search <;>
    cases w.searchInit <;> simp

theorem Init_of_once (s : searchServer) (w : Collaborators) (h : s.once = true) :
    s.Init w = ⟨s, s.initErr, []⟩ := by
  simp [searchServer.Init, h]

theorem Init_of_not_once (s : searchServer) (w : Collaborators) (h : s.once = false) :
    s.Init w = ⟨{ s with once := true, initErr := (s.initBody w).1 }, (s.initBody w).1,
      (s.initBody w).2⟩ := by
  simp [searchServer.Init, h]

theorem Init_once_after (s : searchServer) (w : Collaborators) :
    (s.Init w).state.once = true ∧ (s.Init w).state.initErr = (s.Init w).ret := by
  cases h : s.once
  · simp [Init_of_not_once s w h]
  · simp [Init_of_once s w h, h]

theorem run_initCalls_of_once (ws : List Collaborators) (s : searchServer)
    (h : s.once = true) :
    ∀ o ∈ run s (initCalls ws), o.err = s.initErr ∧ o.events = [] := by
  induction ws generalizing s with
  | nil => intro o ho; simp [initCalls, run] at ho
  | cons w rest ih =>
    intro o ho
    simp only [initCalls, List.map_cons, run, step, List.mem_cons] at ho
    rw [Init_of_once s w h] at ho
    rcases ho with rfl | ho
    · exact ⟨rfl, rfl⟩
    · exact ih s h o ho

theorem allEvents_nil_of_forall (obs : List Observed) (h : ∀ o ∈ obs, o.events = []) :
    allEvents obs = [] := by
  induction obs with
  | nil => rfl
  | cons o rest ih =>
    simp only [allEvents]
    rw [h o (List.mem_cons_self _ _), ih (fun o' ho' => h o' (List.mem_cons_of_mem _ ho'))]
    rfl

/-- C1: N calls to `Init` in a row (no `Stop` in between) all return the same
error value, run the lifecycle `Init` hook at most once and the index
subsystem's `init` at most once, and every call after the first makes no
collaborator call at all. -/
theorem Init_idempotent (s : searchServer) (ws : List Collaborators) :
    (∀ o ∈ run s (initCalls ws), ∀ o' ∈ run s (initCalls ws), o.err = o'.err) ∧
    (allEvents (run s (initCalls ws))).count Event.lifecycleInit ≤ 1 ∧
    (allEvents (run s (initCalls ws))).count Event.searchInit ≤ 1 ∧
    (∀ o ∈ (run s (initCalls ws)).tail, o.events = []) := by
  cases ws with
  | nil => simp [initCalls, run, allEvents]
  | cons w rest =>
    have hs := Init_once_after s w
    have htail := run_initCalls_of_once rest (s.Init w).state hs.1
    have hrun : run s (initCalls (w :: rest)) =
        ⟨Call.Init, w, .error (s.Init w).ret, (s.Init w).events⟩ ::
          run (s.Init w).state (initCalls rest) := by
      simp [initCalls, run, step]
    have hev : allEvents (run s (initCalls (w :: rest))) = (s.Init w).events := by
      rw [hrun]
      simp only [allEvents]
      rw [allEvents_nil_of_forall _ (fun o ho => (htail o ho).2)]
      simp
    have hret : ∀ o ∈ run s (initCalls (w :: rest)), o.err = (s.Init w).ret := by
      intro o ho
      rw [hrun] at ho
      rcases List.mem_cons.1 ho with rfl | ho
      · rfl
      · rw [(htail o ho).1, hs.2]
    refine ⟨fun o ho o' ho' => by rw [hret o ho, hret o' ho'], ?_, ?_, ?_⟩
    · rw [hev]
      cases h : s.once
      · rw [Init_of_not_once s w h]; exact initBody_count_lifecycleInit s w
      · rw [Init_of_once s w h]; simp
    · rw [hev]
      cases h : s.once
      · rw [Init_of_not_once s w h]; exact initBody_count_searchInit s w
      · rw [Init_of_once s w h]; simp
    · intro o ho
      rw [hrun] at ho
      exact (htail o ho).2

/-! ### Search and GetStats -/

theorem Search_eq (s : searchServer) (w : Collaborators) (req : ResourceSearchRequest) :
    s.Search w req =
      ⟨s, if s.search.isNone then (none, some (Error.new "search index not configured"))
          else w.searchSearch req,
        if s.search.isNone then [] else [Event.searchSearch req]⟩ := by
  unfold searchServer.Search
  cases s.search <;> simp

/-- C5: `Search` returns the error "search index not configured" when no index
subsystem was supplied and otherwise exactly what the index subsystem's
`Search` returns; in both cases the facade is left as it was (`Init` is not
called, `once` and `initErr` are untouched) and no lifecycle hook or index
`init` runs. -/
theorem Search_delegates (s : searchServer) (w : Collaborators) (req : ResourceSearchRequest) :
    (s.Search w req).ret =
      (if s.search.isNone then (none, some (Error.new "search index not configured"))
       else w.searchSearch req) ∧
    (s.Search w req).state = s ∧
    (s.Search w req).events = (if s.search.isNone then [] else [Event.searchSearch req]) ∧
    Event.lifecycleInit ∉ (s.Search w req).events ∧
    Event.lifecycleStop ∉ (s.Search w req).events ∧
    Event.searchInit ∉ (s.Search w req).events := by
  unfold searchServer.Search
  cases s.search <;> simp

/-- C2 as stated fails: on a facade with an index subsystem whose `Init` succeeded
and whose `Stop` returned nil, a later `Search` returns the index subsystem's
response with a nil error. -/
theorem Search_succeeds_once_stopped :
    (exServer.Init exOk).ret = none ∧
    ((exServer.Init exOk).state.Stop exOk).ret = none ∧
    (((exServer.Init exOk).state.Stop exOk).state.Search exOk ⟨5⟩).ret = (some ⟨5⟩, none) := by
  refine ⟨rfl, rfl, rfl⟩

theorem Stop_state (s : searchServer) (w : Collaborators) :
    (s.Stop w).state.search = s.search ∧ (s.Stop w).state.once = s.once ∧
    (s.Stop w).state.backend = s.backend ∧ (s.Stop w).state.lifecycle = s.lifecycle ∧
    (s.Stop w).state.cancelled = true ∧
    (∃ e, (s.Stop w).state.initErr = some e ∧ isStoppedError e = true) ∧
    Event.lifecycleInit ∉ (s.Stop w).events ∧ Event.searchInit ∉ (s.Stop w).events := by
  unfold searchServer.Stop
  cases s.lifecycle <;> cases w.lifecycleStop <;> simp [isStoppedError]

/-- C2, amended: after `Stop`, `Search` is not gated by the stopped state: it
returns "search index not configured" when no index subsystem was supplied and
otherwise exactly what the index subsystem's `Search` returns.  The stopped
error is what `Init` and `GetStats` return after `Stop` on a facade whose
`Init` had already run. -/
theorem Search_not_gated_by_Stop (s : searchServer) (w0 w : Collaborators)
    (req : ResourceSearchRequest) (sreq : ResourceStatsRequest) :
    ((s.Stop w0).state.Search w req).ret =
      (if s.search.isNone then (none, some (Error.new "search index not configured"))
       else w.searchSearch req) ∧
    (s.once = true → ∃ e, isStoppedError e = true ∧
      ((s.Stop w0).state.Init w).ret = some e ∧
      ((s.Stop w0).state.GetStats w sreq).ret = (none, some e)) := by
  obtain ⟨hsearch, honce, -, -, -, ⟨e, he, hst⟩, -, -⟩ := Stop_state s w0
  refine ⟨?_, fun h => ⟨e, hst, ?_, ?_⟩⟩
  · rw [Search_eq _ w req, hsearch]
  · rw [Init_of_once _ w (honce.trans h)]; exact he
  · simp only [searchServer.GetStats]
    rw [Init_of_once _ w (honce.trans h)]
    simp [he]

/-! ### Terminal states -/

theorem initBody_isSome (s : searchServer) (w : Collaborators)
    (h : s.initErr.isSome = true) :
    (s.initBody w).1.isSome = true ∧
    (s.lifecycle = none → (s.initBody w).1 = s.initErr) := by
  obtain ⟨e, he⟩ := Option.isSome_iff_exists.1 h
  unfold searchServer.initBody
  cases s.lifecycle <;> cases w.lifecycleInit <;> simp [he]

theorem Init_isSome (s : searchServer) (w : Collaborators) (h : s.initErr.isSome = true) :
    (s.Init w).ret.isSome = true ∧ (s.Init w).state.initErr.isSome = true ∧
    (s.Init w).state.search = s.search := by
  cases ho : s.once
  · rw [Init_of_not_once s w ho]
    exact ⟨(initBody_isSome s w h).1, (initBody_isSome s w h).1, rfl⟩
  · rw [Init_of_once s w ho]
    exact ⟨h, h, rfl⟩

theorem GetStats_of_Init_error (s : searchServer) (w : Collaborators)
    (req : ResourceStatsRequest) (e : Error) (h : (s.Init w).ret = some e) :
    s.GetStats w req = ⟨(s.Init w).state, (none, some e), (s.Init w).events⟩ := by
  simp [searchServer.GetStats, h]

theorem step_initErr_isSome (s : searchServer) (c : Call) (w : Collaborators)
    (h : s.initErr.isSome = true) : (step s c w).1.initErr.isSome = true := by
  cases c with
  | Init => exact (Init_isSome s w h).2.1
  | Stop =>
    obtain ⟨-, -, -, -, -, ⟨e, he, -⟩, -, -⟩ := Stop_state s w
    simp [step, he]
  | Search req => simpa [step, Search_eq s w req] using h
  | GetStats req =>
    obtain ⟨e, he⟩ := Option.isSome_iff_exists.1 (Init_isSome s w h).1
    simp only [step]
    rw [GetStats_of_Init_error s w req e he]
    exact (Init_isSome s w h).2.1

theorem run_Init_fails_of_initErr (cs : List (Call × Collaborators)) (s : searchServer)
    (h : s.initErr.isSome = true) :
    ∀ o ∈ run s cs, o.call = Call.Init → o.err.isSome = true := by
  induction cs generalizing s with
  | nil => intro o ho; simp [run] at ho
  | cons cw rest ih =>
    obtain ⟨c, w⟩ := cw
    intro o ho hc
    simp only [run, List.mem_cons] at ho
    rcases ho with rfl | ho
    · cases c with
      | Init => exact (Init_isSome s w h).1
      | Stop => simp [step] at hc
      | Search req => simp [step] at hc
      | GetStats req => simp [step] at hc
    · exact ih _ (step_initErr_isSome s c w h) o ho hc

/-- C3: once `Stop` has been called, every later `Init` on the same facade returns
a non-nil error, whatever calls (`Init`, `Stop`, `Search`, `GetStats`) are made
in between, whether or not `Init` had run before `Stop`, and whatever the
lifecycle hooks and the index subsystem return. -/
theorem Init_after_Stop_fails (s : searchServer) (w0 : Collaborators)
    (cs : List (Call × Collaborators)) :
    ∀ o ∈ run (s.Stop w0).state cs, o.call = Call.Init → o.err ≠ none := by
  intro o ho hc
  obtain ⟨-, -, -, -, -, ⟨e, he, -⟩, -, -⟩ := Stop_state s w0
  have := run_Init_fails_of_initErr cs (s.Stop w0).state (by simp [he]) o ho hc
  intro hn
  simp [hn] at this

/-- C3 at a concrete facade: `Stop` before any `Init` (both hooks succeed), then
`Search`, then `Init`: the `Init` returns a non-nil error. -/
theorem Init_after_Stop_fails_witness :
    (step (step (exServer.Stop exOk).state (Call.Search ⟨1⟩) exOk).1 Call.Init exOk).2.err
      ≠ none :=
  Init_after_Stop_fails exServer exOk [(Call.Search ⟨1⟩, exOk), (Call.Init, exOk)] _
    (List.mem_cons_of_mem _ (List.mem_cons_self _ _)) rfl

/-! ### Failed initialization -/

theorem step_of_failed (s : searchServer) (c : Call) (w : Collaborators)
    (ho : s.once = true) (he : s.initErr.isSome = true) :
    (step s c w).1.once = true ∧ (step s c w).1.initErr.isSome = true ∧
    (step s c w).1.search = s.search ∧
    (step s c w).2.call = c ∧ (step s c w).2.world = w ∧
    Event.lifecycleInit ∉ (step s c w).2.events ∧
    Event.searchInit ∉ (step s c w).2.events ∧
    (c = Call.Init → (step s c w).2.ret = .error s.initErr) ∧
    (∀ r, c = Call.GetStats r → (step s c w).2.ret = .stats (none, s.initErr)) ∧
    (∀ r, c = Call.Search r → (step s c w).2.ret = .search
      (if s.search.isNone then (none, some (Error.new "search index not configured"))
       else w.searchSearch r)) := by
  obtain ⟨e, hse⟩ := Option.isSome_iff_exists.1 he
  cases c with
  | Init => simp [step, Init_of_once s w ho, ho, he]
  | Stop =>
    obtain ⟨h1, h2, -, -, -, ⟨e, h3, -⟩, h4, h5⟩ := Stop_state s w
    simp [step, h1, h2, h3, h4, h5, ho]
  | Search req =>
    simp only [step, Search_eq s w req]
    cases s.search <;> simp [ho, he]
  | GetStats req =>
    have hi : (s.Init w).ret = some e := by rw [Init_of_once s w ho]; exact hse
    simp only [step]
    rw [GetStats_of_Init_error s w req e hi, Init_of_once s w ho]
    simp [ho, he, hse]

theorem run_of_failed (cs : List (Call × Collaborators)) (s : searchServer)
    (ho : s.once = true) (he : s.initErr.isSome = true) :
    ∀ o ∈ run s cs,
      Event.lifecycleInit ∉ o.events ∧ Event.searchInit ∉ o.events ∧
      (o.call = Call.Init → o.err ≠ none) ∧
      (∀ r, o.call = Call.GetStats r → ∃ e, o.ret = .stats (none, some e)) ∧
      (∀ r, o.call = Call.Search r → o.ret = .search
        (if s.search.isNone then (none, some (Error.new "search index not configured"))
         else o.world.searchSearch r)) := by
  induction cs generalizing s with
  | nil => intro o ho; simp [run] at ho
  | cons cw rest ih =>
    obtain ⟨c, w⟩ := cw
    intro o hmem
    obtain ⟨h1, h2, h3, h4, h5, h6, h7, h8, h9, h10⟩ := step_of_failed s c w ho he
    obtain ⟨e, hse⟩ := Option.isSome_iff_exists.1 he
    simp only [run, List.mem_cons] at hmem
    rcases hmem with rfl | hmem
    · refine ⟨h6, h7, ?_, ?_, ?_⟩
      · intro hc
        simp [Observed.err, h8 (h4.symm.trans hc), Returned.err, hse]
      · intro r hc
        exact ⟨e, by rw [h9 r (h4.symm.trans hc), hse]⟩
      · intro r hc
        rw [h10 r (h4.symm.trans hc), h5]
    · have := ih _ h1 h2 o hmem
      rw [h3] at this
      exact this

theorem NewResourceSearchServer_of_facade (opts : ResourceSearchServerOptions)
    (c : Construction) (w : Collaborators) (s0 : searchServer) (pre : List Event)
    (h : facadeBeforeInit opts c = some (s0, pre)) :
    s0.once = false ∧ s0.initErr = none ∧
    NewResourceSearchServer opts c w =
      (match (s0.Init w).ret with
       | some err =>
         ⟨none, some err,
           pre ++ (s0.Init w).events ++ [Event.logError "resource server init failed"]⟩
       | none => ⟨some (s0.Init w).state, none, pre ++ (s0.Init w).events⟩) := by
  unfold facadeBeforeInit at h
  unfold NewResourceSearchServer
  cases hb : opts.Backend with
  | none => simp [hb] at h
  | some backend =>
    simp only [hb] at h ⊢
    rcases hblob : initBlobStorage opts backend c with ⟨blob, ev1⟩
    rw [hblob] at h
    cases blob with
    | error err => simp at h
    | ok blobstore =>
      simp only at h ⊢
      cases hr : opts.Search.Resources with
      | none =>
        simp only [hr, Option.some.injEq, Prod.mk.injEq] at h
        obtain ⟨rfl, rfl⟩ := h
        exact ⟨rfl, rfl, rfl⟩
      | some resources =>
        simp only [hr] at h
        cases hn : c.newSearchSupport with
        | error err => simp [hn] at h
        | ok search =>
          simp only [hn, Option.some.injEq, Prod.mk.injEq] at h
          obtain ⟨rfl, rfl⟩ := h
          exact ⟨rfl, rfl, rfl⟩

theorem NewResourceSearchServer_returns_initialized (opts : ResourceSearchServerOptions)
    (c : Construction) (w : Collaborators) (s : searchServer)
    (h : (NewResourceSearchServer opts c w).server = some s) :
    s.once = true ∧ s.initErr = none ∧
    ∃ s0 pre, facadeBeforeInit opts c = some (s0, pre) ∧ (s0.Init w).ret = none ∧
      s = (s0.Init w).state := by
  cases hf : facadeBeforeInit opts c with
  | none =>
    exfalso
    unfold facadeBeforeInit at hf
    unfold NewResourceSearchServer at h
    cases hb : opts.Backend with
    | none => simp [hb] at h
    | some backend =>
      simp only [hb] at h hf
      rcases hblob : initBlobStorage opts backend c with ⟨blob, ev1⟩
      rw [hblob] at h hf
      cases blob with
      | error err => simp at h
      | ok blobstore =>
        simp only at h hf
        cases hr : opts.Search.Resources with
        | none => simp [hr] at hf
        | some resources =>
          simp only [hr] at h hf
          cases hn : c.newSearchSupport with
          | error err => simp [hn] at h
          | ok search => simp [hn] at hf
  | some built =>
    obtain ⟨s0, pre⟩ := built
    obtain ⟨-, -, heq⟩ := NewResourceSearchServer_of_facade opts c w s0 pre hf
    rw [heq] at h
    cases hret : (s0.Init w).ret with
    | some err => simp [hret] at h
    | none =>
      simp only [hret, Option.some.injEq] at h
      subst h
      have hs := Init_once_after s0 w
      exact ⟨hs.1, hs.2.trans hret, s0, pre, rfl, hret, rfl⟩

/-- C4: the first `Init` on a facade is the one `NewResourceSearchServer` makes on
the facade it has just built (`once` unset, `initErr` nil).  When that call
returns a non-nil error, the constructor returns this error and no facade, so
the calls a caller can make afterwards on a built facade are none: every such
`Init`, `Search` and `GetStats` call returns a non-nil error and runs neither
the lifecycle hook nor the index init.  On the state of the facade itself,
every later `Init` and `GetStats` returns a non-nil error (`GetStats` without
a response) and no later call runs the lifecycle `Init` hook or the index
`init` again. -/
theorem first_Init_error_is_final (opts : ResourceSearchServerOptions) (c : Construction)
    (w : Collaborators) (s0 : searchServer) (pre : List Event) (e : Error)
    (cs : List (Call × Collaborators))
    (hbuilt : facadeBeforeInit opts c = some (s0, pre))
    (hfail : (s0.Init w).ret = some e) :
    s0.once = false ∧ s0.initErr = none ∧
    (NewResourceSearchServer opts c w).server = none ∧
    (NewResourceSearchServer opts c w).err = some e ∧
    callsOnBuilt opts c w cs = [] ∧
    (∀ o ∈ callsOnBuilt opts c w cs,
      o.err ≠ none ∧ Event.lifecycleInit ∉ o.events ∧ Event.searchInit ∉ o.events) ∧
    (∀ o ∈ run (s0.Init w).state cs,
      Event.lifecycleInit ∉ o.events ∧ Event.searchInit ∉ o.events ∧
      (o.call = Call.Init → o.err ≠ none) ∧
      (∀ r, o.call = Call.GetStats r → ∃ e1, o.ret = .stats (none, some e1))) := by
  obtain ⟨h1, h2, heq⟩ := NewResourceSearchServer_of_facade opts c w s0 pre hbuilt
  simp only [hfail] at heq
  have hnone : callsOnBuilt opts c w cs = [] := by
    simp [callsOnBuilt, heq]
  refine ⟨h1, h2, by rw [heq], by rw [heq], hnone, ?_, ?_⟩
  · intro o ho
    rw [hnone] at ho
    simp at ho
  · intro o ho
    have hs := Init_once_after s0 w
    have hsome : (s0.Init w).state.initErr.isSome = true := by
      rw [hs.2, hfail]; rfl
    obtain ⟨a1, a2, a3, a4, -⟩ := run_of_failed cs (s0.Init w).state hs.1 hsome o ho
    exact ⟨a1, a2, a3, a4⟩

/-- C4 at concrete options with a backend, resources and lifecycle hooks whose
`Init` hook fails: the facade the constructor builds is `exServer`, its first
`Init` returns the wrapped hook error, the constructor returns this error and
no facade, and a `GetStats` on the state of that facade returns an error. -/
theorem first_Init_error_is_final_witness :
    facadeBeforeInit exOpts exConstruction = some (exServer, [Event.newSearchSupport]) ∧
    (exServer.Init exInitFails).ret =
      some (Error.wrapped "initialize Resource Server: " (Error.new "hook failed")) ∧
    (NewResourceSearchServer exOpts exConstruction exInitFails).server = none ∧
    (NewResourceSearchServer exOpts exConstruction exInitFails).err =
      some (Error.wrapped "initialize Resource Server: " (Error.new "hook failed")) ∧
    ∃ e1, (step (exServer.Init exInitFails).state (Call.GetStats ⟨2⟩) exOk).2.ret =
      .stats (none, some e1) :=
  have h := first_Init_error_is_final exOpts exConstruction exInitFails exServer
    [Event.newSearchSupport]
    (Error.wrapped "initialize Resource Server: " (Error.new "hook failed"))
    [(Call.GetStats ⟨2⟩, exOk)] rfl rfl
  ⟨rfl, rfl, h.2.2.1, h.2.2.2.1,
    (h.2.2.2.2.2.2 _ (List.mem_cons_self _ _)).2.2.2 ⟨2⟩ rfl⟩

/-! ### GetStats -/

/-- C6 as stated fails: no index subsystem, a stats-capable backend whose
`GetStats` would succeed, and a failing lifecycle `Init` hook: `GetStats`
returns the initialization error instead of the backend's answer. -/
theorem GetStats_backend_gated_by_Init :
    exServerNoIndex.search = none ∧
    exServerNoIndex.backend.implementsResourceIndexServer = true ∧
    exInitFails.backendGetStats ⟨5⟩ = (some ⟨105⟩, none) ∧
    (exServerNoIndex.GetStats exInitFails ⟨5⟩).ret =
      (none, some (Error.wrapped "initialize Resource Server: " (Error.new "hook failed"))) := by
  refine ⟨rfl, rfl, rfl, rfl⟩

/-- C6, amended: `GetStats` first calls `Init` in every case; when that returns an
error, `GetStats` returns this error and no response, with or without an index
subsystem.  When it returns nil, a facade with no index subsystem and a
stats-capable backend returns exactly what the backend's `GetStats` returns. -/
theorem GetStats_backend_fallback (s : searchServer) (w : Collaborators)
    (req : ResourceStatsRequest) (hsearch : s.search = none)
    (hstats : s.backend.implementsResourceIndexServer = true) :
    ((s.Init w).ret = none → (s.GetStats w req).ret = w.backendGetStats req) ∧
    (∀ (s' : searchServer) (e : Error), (s'.Init w).ret = some e →
      (s'.GetStats w req).ret = (none, some e)) := by
  constructor
  · intro h
    have hs : (s.Init w).state.search = none ∧
        (s.Init w).state.backend.implementsResourceIndexServer = true := by
      cases ho : s.once
      · rw [Init_of_not_once s w ho]; exact ⟨hsearch, hstats⟩
      · rw [Init_of_once s w ho]; exact ⟨hsearch, hstats⟩
    simp [searchServer.GetStats, h, hs.1, hs.2]
  · intro s' e h
    rw [GetStats_of_Init_error s' w req e h]

/-- C6, amended, at a concrete facade: hooks succeed, no index subsystem, and the
backend's `GetStats` answer is returned. -/
theorem GetStats_backend_fallback_witness :
    (exServerNoIndex.GetStats exOk ⟨5⟩).ret = exOk.backendGetStats ⟨5⟩ :=
  (GetStats_backend_fallback exServerNoIndex exOk ⟨5⟩ rfl rfl).1 rfl

/-! ### Stop -/

/-- C7: two calls of `Stop` in a row, during which the lifecycle `Stop` hook (if
there is one) returns the same result, return the same value and leave the
same terminal state (`initErr`, and in fact the same facade). -/
theorem Stop_twice (s : searchServer) (w1 w2 : Collaborators)
    (h : s.lifecycle ≠ none → w1.lifecycleStop = w2.lifecycleStop) :
    ((s.Stop w1).state.Stop w2).ret = (s.Stop w1).ret ∧
    ((s.Stop w1).state.Stop w2).state.initErr = (s.Stop w1).state.initErr ∧
    ((s.Stop w1).state.Stop w2).state = (s.Stop w1).state := by
  unfold searchServer.Stop
  cases hl : s.lifecycle with
  | none => simp
  | some l =>
    have h' := h (by simp [hl])
    rw [← h']
    cases w1.lifecycleStop <;> simp

/-- C7 at a concrete facade whose lifecycle `Stop` hook fails both times: both
calls return the same wrapped error. -/
theorem Stop_twice_witness :
    ((exServer.Stop exStopFails).state.Stop exStopFails).ret =
      some (Error.wrapped "service stopeed with error: " (Error.new "hook failed")) :=
  (Stop_twice exServer exStopFails exStopFails (fun _ => rfl)).1.trans rfl

/-! ### Construction -/

/-- C8: when `opts.Backend` is nil, `NewResourceSearchServer` returns no server
and the error "missing Backend implementation", and has made no collaborator
call: no blob bucket opened, no index subsystem built, no lifecycle hook run. -/
theorem NewResourceSearchServer_missing_backend (opts : ResourceSearchServerOptions)
    (c : Construction) (w : Collaborators) (h : opts.Backend = none) :
    (NewResourceSearchServer opts c w).server = none ∧
    (NewResourceSearchServer opts c w).err = some (Error.new "missing Backend implementation") ∧
    (NewResourceSearchServer opts c w).events = [] := by
  simp [NewResourceSearchServer, h]

/-- C8 at concrete options that configure a blob URL, resources and lifecycle
hooks but no backend. -/
theorem NewResourceSearchServer_missing_backend_witness :
    (NewResourceSearchServer exOptsNoBackend exConstruction exOk).server = none ∧
    (NewResourceSearchServer exOptsNoBackend exConstruction exOk).err =
      some (Error.new "missing Backend implementation") ∧
    (NewResourceSearchServer exOptsNoBackend exConstruction exOk).events = [] :=
  NewResourceSearchServer_missing_backend exOptsNoBackend exConstruction exOk rfl

/-! ## Properties of the service wrapper -/

theorem startingRing_spec (s : searchService) (e : StartingEnv) (pre : List ServiceEvent)
    (h : s.cfg.EnableSharding = true)
    (hrun : ServiceEvent.goHandlerRun ∉ pre)
    (hwait : ∀ id st, ServiceEvent.waitInstanceState id st ∉ pre)
    (hchange : ∀ st, ServiceEvent.changeState st ∉ pre) :
    (ServiceEvent.goHandlerRun ∈ (s.startingRing e pre).events →
      e.waitInstanceState = none ∧ e.changeState = none ∧
      (s.startingRing e pre).ret = .returned none ∧
      ∃ id, (s.startingRing e pre).events =
        pre ++ [.waitInstanceState id .JOINING, .changeState .ACTIVE, .goHandlerRun]) ∧
    (∀ id st err, ServiceEvent.waitInstanceState id st ∈ (s.startingRing e pre).events →
      e.waitInstanceState = some err →
      (s.startingRing e pre).ret =
        .returned (some (errorfS "error switching to JOINING in the ring: " err)) ∧
      ServiceEvent.goHandlerRun ∉ (s.startingRing e pre).events ∧
      ∀ st', ServiceEvent.changeState st' ∉ (s.startingRing e pre).events) ∧
    (∀ st err, ServiceEvent.changeState st ∈ (s.startingRing e pre).events →
      e.changeState = some err →
      (s.startingRing e pre).ret =
        .returned (some (errorfS "error switching to ACTIVE in the ring: " err)) ∧
      ServiceEvent.goHandlerRun ∉ (s.startingRing e pre).events) := by
  unfold searchService.startingRing
  rw [if_pos h]
  cases s.ringLifecycler with
  | none => simp [hrun, hwait, hchange]
  | some lfc =>
    cases hw : e.waitInstanceState <;> cases hc : e.changeState <;>
      simp [hrun, hwait, hchange]

theorem starting_cases (s : searchService) (e : StartingEnv) :
    (ServiceEvent.goHandlerRun ∉ (s.starting e).events ∧
      (∀ id st, ServiceEvent.waitInstanceState id st ∉ (s.starting e).events) ∧
      (∀ st, ServiceEvent.changeState st ∉ (s.starting e).events)) ∨
    ∃ pre, s.starting e =
        searchService.startingRing { s with handler := e.provideService.1 } e pre ∧
      ServiceEvent.goHandlerRun ∉ pre ∧
      (∀ id st, ServiceEvent.waitInstanceState id st ∉ pre) ∧
      (∀ st, ServiceEvent.changeState st ∉ pre) := by
  unfold searchService.starting
  cases s.hasSubservices <;>
  · simp only
    split
    · left; simp
    · split
      · left; simp
      · split
        · left; simp
        · split
          · left; simp
          · split
            · left; simp
            · split
              · left; simp
              · split
                · left; simp
                · split
                  · left; simp
                  · right; exact ⟨_, rfl, by simp, by simp, by simp⟩

/-- C9: in `starting` with sharding enabled, the goroutine running the transport
is started only when the wait for this instance's JOINING state and the change
to ACTIVE were both made, in this order, and both returned nil; when either
of them is made and returns an error, `starting` returns a non-nil error and
the transport is not run (and after a failed wait ACTIVE is not requested). -/
theorem starting_ring_handshake (s : searchService) (e : StartingEnv)
    (h : s.cfg.EnableSharding = true) :
    (ServiceEvent.goHandlerRun ∈ (s.starting e).events →
      e.waitInstanceState = none ∧ e.changeState = none ∧
      (s.starting e).ret = .returned none ∧
      ∃ pre id, (s.starting e).events =
        pre ++ [.waitInstanceState id .JOINING, .changeState .ACTIVE, .goHandlerRun] ∧
        ServiceEvent.goHandlerRun ∉ pre) ∧
    (∀ id st err, ServiceEvent.waitInstanceState id st ∈ (s.starting e).events →
      e.waitInstanceState = some err →
      (s.starting e).ret =
        .returned (some (errorfS "error switching to JOINING in the ring: " err)) ∧
      ServiceEvent.goHandlerRun ∉ (s.starting e).events ∧
      ∀ st', ServiceEvent.changeState st' ∉ (s.starting e).events) ∧
    (∀ st err, ServiceEvent.changeState st ∈ (s.starting e).events →
      e.changeState = some err →
      (s.starting e).ret =
        .returned (some (errorfS "error switching to ACTIVE in the ring: " err)) ∧
      ServiceEvent.goHandlerRun ∉ (s.starting e).events) := by
  rcases starting_cases s e with ⟨h1, h2, h3⟩ | ⟨pre, heq, h1, h2, h3⟩
  · exact ⟨fun hm => absurd hm h1, fun id st _ hm => absurd hm (h2 id st),
      fun st _ hm => absurd hm (h3 st)⟩
  · rw [heq]
    obtain ⟨ha, hb, hc⟩ :=
      startingRing_spec { s with handler := e.provideService.1 } e pre h h1 h2 h3
    refine ⟨fun hm => ?_, hb, hc⟩
    obtain ⟨hw, hch, hret, id, hev⟩ := ha hm
    exact ⟨hw, hch, hret, pre, id, hev, h1⟩

/-- C9 at a concrete service with sharding enabled: when every step succeeds the
transport is run last, after the wait for JOINING and the change to ACTIVE;
when the wait times out or the change to ACTIVE fails, `starting` returns the
error and the transport is not run. -/
theorem starting_ring_handshake_witness :
    (exService.starting exStartOk).ret = .returned none ∧
    ServiceEvent.goHandlerRun ∈ (exService.starting exStartOk).events ∧
    (exService.starting exStartJoinTimeout).ret = .returned (some (Error.new
      "error switching to JOINING in the ring: context deadline exceeded")) ∧
    ServiceEvent.goHandlerRun ∉ (exService.starting exStartJoinTimeout).events ∧
    (exService.starting exStartActiveFails).ret = .returned (some (Error.new
      "error switching to ACTIVE in the ring: kv store unavailable")) ∧
    ServiceEvent.goHandlerRun ∉ (exService.starting exStartActiveFails).events :=
  have hrun : ServiceEvent.goHandlerRun ∈ (exService.starting exStartOk).events := by
    simp [exService, exStartOk, searchService.starting, searchService.startingRing]
  have hwait : ServiceEvent.waitInstanceState "search-1" .JOINING ∈
      (exService.starting exStartJoinTimeout).events := by
    simp [exService, exStartOk, exStartJoinTimeout, searchService.starting,
      searchService.startingRing]
  have hchange : ServiceEvent.changeState .ACTIVE ∈
      (exService.starting exStartActiveFails).events := by
    simp [exService, exStartOk, exStartActiveFails, searchService.starting,
      searchService.startingRing]
  have a := ((starting_ring_handshake exService exStartOk rfl).1 hrun).2.2.1
  have b := (starting_ring_handshake exService exStartJoinTimeout rfl).2.1
    "search-1" .JOINING (Error.new "context deadline exceeded") hwait rfl
  have c := (starting_ring_handshake exService exStartActiveFails rfl).2.2
    .ACTIVE (Error.new "kv store unavailable") hchange rfl
  ⟨a, hrun, b.1.trans (by simp [errorfS, Error.text]), b.2.1,
    c.1.trans (by simp [errorfS, Error.text]), c.2⟩

/-- C10: `running` returns the transport's terminal error when it is non-nil and
not a context cancellation; whenever the failure watcher reports, it returns a
non-nil error (wrapping the reported failure when that is non-nil); and it
returns nil only when the transport ended cleanly, ended with a
context-cancelled error, or its own context was cancelled.  Conversely the
first two of these always return nil, and so does the third once `stopCh` has
been closed (it is made and still open). -/
theorem running_returns (s : searchService) :
    (∀ err, err.isCanceled = false →
      (s.running (.stoppedCh (some err))).ret = .returned (some err)) ∧
    (∀ failure, ∃ err, (s.running (.subservicesWatcher failure)).ret = .returned (some err) ∧
      ∀ cause, failure = some cause → err = Error.wrapped "subservice failure: " cause) ∧
    (∀ sel, (s.running sel).ret = .returned none →
      sel = .stoppedCh none ∨ (∃ err, sel = .stoppedCh (some err) ∧ err.isCanceled = true) ∨
      sel = .ctxDone) ∧
    (s.running (.stoppedCh none)).ret = .returned none ∧
    (∀ err, err.isCanceled = true → (s.running (.stoppedCh (some err))).ret = .returned none) ∧
    (s.stopCh = some ⟨false⟩ → (s.running .ctxDone).ret = .returned none ∧
      (s.running .ctxDone).state.stopCh = some ⟨true⟩) := by
  refine ⟨?_, ?_, ?_, ?_, ?_, ?_⟩
  · intro err h
    simp [searchService.running, h]
  · intro failure
    refine ⟨errorfW "subservice failure: " failure, rfl, ?_⟩
    rintro cause rfl
    rfl
  · intro sel h
    cases sel with
    | stoppedCh err =>
      cases err with
      | none => exact Or.inl rfl
      | some err =>
        right; left
        refine ⟨err, rfl, ?_⟩
        cases hc : err.isCanceled
        · simp [searchService.running, hc] at h
        · rfl
    | subservicesWatcher failure => simp [searchService.running] at h
    | ctxDone => exact Or.inr (Or.inr rfl)
  · rfl
  · intro err h
    simp [searchService.running, h]
  · intro h
    simp [searchService.running, searchService.closeChan, h]

/-! ## Properties of the constructor of the service wrapper -/

theorem provideSharding_ok (s : searchService) (e : ProvideEnv) (s1 : searchService)
    (subs : List BasicLifecycler) (h : provideSharding s e = .ok (s1, subs)) :
    s1.stoppedCh = s.stoppedCh ∧ s1.stopCh = s.stopCh ∧ s1.cfg = s.cfg ∧
    ∃ l, s1.ringLifecycler = some l ∧ l.keepInstanceInTheRingOnShutdown = true ∧
      subs = [l] := by
  unfold provideSharding at h
  cases hc : e.newClient <;> simp only [hc] at h
  · cases hl : e.toLifecyclerConfig <;> simp only [hl] at h
    · cases hb : e.newBasicLifecycler with
      | error err => simp [hb] at h
      | ok lfc =>
        simp only [hb, Except.ok.injEq, Prod.mk.injEq] at h
        obtain ⟨rfl, rfl⟩ := h
        exact ⟨rfl, rfl, rfl, _, rfl, rfl, rfl⟩
    · cases h
  · cases h

theorem Provide_ok (cfg : Cfg) (e : ProvideEnv) (s : searchService)
    (h : ProvideUnifiedSearchGrpcService cfg e = .ok s) :
    s.stoppedCh = none ∧ s.stopCh = some ⟨false⟩ ∧ s.cfg = cfg ∧
    (cfg.EnableSharding = true →
      ∃ l, s.ringLifecycler = some l ∧ l.keepInstanceInTheRingOnShutdown = true) := by
  unfold ProvideUnifiedSearchGrpcService at h
  cases hs : cfg.EnableSharding
  · simp [hs] at h
    subst h
    simp
  · simp only [hs, if_true] at h
    split at h
    · cases h
    · rename_i s1 subs heq
      obtain ⟨h1, h2, h3, l, h4, h5, h6⟩ := provideSharding_ok _ e s1 subs heq
      subst h6
      simp only [List.length_singleton, gt_iff_lt, zero_lt_one, if_true] at h
      cases hm : e.newManager <;> simp only [hm] at h
      · simp only [Except.ok.injEq] at h
        subst h
        exact ⟨h1, h2, h3, fun _ => ⟨l, h4, h5⟩⟩
      · cases h

theorem starting_stoppedCh (s : searchService) (e : StartingEnv) :
    (s.starting e).state.stoppedCh = s.stoppedCh := by
  have hring : ∀ (s' : searchService) (pre : List ServiceEvent),
      (s'.startingRing e pre).state = s' := by
    intro s' pre
    unfold searchService.startingRing
    split
    · split
      · rfl
      · split
        · rfl
        · split <;> rfl
    · rfl
  unfold searchService.starting
  simp only
  split
  · rfl
  · split
    · rfl
    · split
      · rfl
      · split
        · rfl
        · split
          · rfl
          · split
            · rfl
            · split
              · rfl
              · split
                · rfl
                · rw [hring]

/-- C11, what the code does: a service built by `ProvideUnifiedSearchGrpcService`
has a nil `stoppedCh`, and `starting` does not make it either.  So the send by
which the transport goroutine reports its result blocks forever, and the
`stoppedCh` case of the `select` of `running` can never be chosen: the
transport's termination is not observed by the running loop. -/
theorem Provide_leaves_stoppedCh_nil (cfg : Cfg) (e : ProvideEnv) (s : searchService)
    (h : ProvideUnifiedSearchGrpcService cfg e = .ok s) (se : StartingEnv) :
    s.stoppedCh = none ∧ (s.starting se).state.stoppedCh = none ∧
    (∀ err, (s.starting se).state.reportStopped err = none) ∧
    (∀ err, (s.starting se).state.selectable (.stoppedCh err) = false) := by
  have h1 := (Provide_ok cfg e s h).1
  have h2 : (s.starting se).state.stoppedCh = none := (starting_stoppedCh s se).trans h1
  refine ⟨h1, h2, fun err => ?_, fun err => ?_⟩
  · simp [searchService.reportStopped, h2]
  · simp [searchService.selectable, h2]

/-- C11 at a concrete construction with sharding enabled in which every step of
the constructor and of `starting` succeeds: the transport's failure report is
never delivered. -/
theorem Provide_leaves_stoppedCh_nil_witness :
    ProvideUnifiedSearchGrpcService ⟨true⟩ exProvideOk = .ok exProvided ∧
    (exProvided.starting exStartOk).ret = .returned none ∧
    (exProvided.starting exStartOk).state.reportStopped (some (Error.new "listener closed"))
      = none :=
  ⟨rfl, rfl, (Provide_leaves_stoppedCh_nil ⟨true⟩ exProvideOk exProvided rfl exStartOk).2.2.1 _⟩

/-- C12 as stated fails: no two configurations with sharding enabled get
different values of the keep-instance-in-the-ring-on-shutdown flag. -/
theorem Provide_keep_flag_never_differs :
    ¬ ∃ (cfg1 cfg2 : Cfg) (e1 e2 : ProvideEnv) (s1 s2 : searchService)
        (l1 l2 : BasicLifecycler),
      cfg1.EnableSharding = true ∧ cfg2.EnableSharding = true ∧
      ProvideUnifiedSearchGrpcService cfg1 e1 = .ok s1 ∧
      ProvideUnifiedSearchGrpcService cfg2 e2 = .ok s2 ∧
      s1.ringLifecycler = some l1 ∧ s2.ringLifecycler = some l2 ∧
      l1.keepInstanceInTheRingOnShutdown ≠ l2.keepInstanceInTheRingOnShutdown := by
  rintro ⟨cfg1, cfg2, e1, e2, s1, s2, l1, l2, hc1, hc2, hp1, hp2, hl1, hl2, hne⟩
  obtain ⟨l1', h1, k1⟩ := (Provide_ok cfg1 e1 s1 hp1).2.2.2 hc1
  obtain ⟨l2', h2, k2⟩ := (Provide_ok cfg2 e2 s2 hp2).2.2.2 hc2
  rw [hl1] at h1
  rw [hl2] at h2
  cases h1
  cases h2
  exact hne (k1.trans k2.symm)

/-- C12, amended: for every configuration with sharding enabled for which
`ProvideUnifiedSearchGrpcService` returns a service, the lifecycler's
keep-instance-in-the-ring-on-shutdown flag is set to true: the instance always
remains registered in the ring on shutdown. -/
theorem Provide_keeps_instance_in_ring (cfg : Cfg) (e : ProvideEnv) (s : searchService)
    (hsharding : cfg.EnableSharding = true)
    (h : ProvideUnifiedSearchGrpcService cfg e = .ok s) :
    ∃ l, s.ringLifecycler = some l ∧ l.keepInstanceInTheRingOnShutdown = true :=
  (Provide_ok cfg e s h).2.2.2 hsharding

/-- C12, amended, at a concrete construction: the lifecycler comes out of
`ring.NewBasicLifecycler` with the flag unset and the service has it set. -/
theorem Provide_keeps_instance_in_ring_witness :
    ∃ l, exProvided.ringLifecycler = some l ∧ l.keepInstanceInTheRingOnShutdown = true :=
  Provide_keeps_instance_in_ring ⟨true⟩ exProvideOk exProvided rfl rfl

/-! ## Properties of the plugin action strings -/

theorem parseActionsLoop_eq (parts : List String) (result : List String) :
    parseActionsLoop result parts =
      result ++ (parts.map stringsTrimSpace).filter (fun piece => piece ≠ "") := by
  induction parts generalizing result with
  | nil => simp [parseActionsLoop]
  | cons action parts ih =>
    simp only [parseActionsLoop, List.map_cons]
    by_cases h : stringsTrimSpace action = ""
    · simp [h, ih]
    · simp [h, ih]

/-- The table of `TestParseActions`. -/
theorem TestParseActions :
    ParseActions "" = none ∧
    ParseActions "grafana-collector-app:admin" = some ["grafana-collector-app:admin"] ∧
    ParseActions "grafana-collector-app:admin,grafana-collector-app.fleet-management:read" =
      some ["grafana-collector-app:admin", "grafana-collector-app.fleet-management:read"] ∧
    ParseActions "action1, action2 , action3" = some ["action1", "action2", "action3"] ∧
    ParseActions "action1,,action2, ,action3" = some ["action1", "action2", "action3"] ∧
    ParseActions "action1,action2," = some ["action1", "action2"] := by
  refine ⟨by decide, by decide, by decide, by decide, by decide, by decide⟩

/-- C13: the elements of `ParseActions(s)` are the pieces of `s` between commas,
trimmed, without the pieces that are empty after trimming, in the original
order; for a non-empty `s` the result is a non-nil slice of them, and
`ParseActions("")` is nil. -/
theorem ParseActions_eq_spec (s : String) :
    sliceElems (ParseActions s) = parseActionsSpec s ∧
    (s ≠ "" → ParseActions s = some (parseActionsSpec s)) ∧
    ParseActions "" = none := by
  have hne : s ≠ "" → ParseActions s = some (parseActionsSpec s) := by
    intro h
    simp [ParseActions, h, parseActionsSpec, parseActionsLoop_eq]
  refine ⟨?_, hne, by decide⟩
  by_cases h : s = ""
  · subst h
    decide
  · rw [hne h]
    rfl

theorem hasAnyLoop_eq_true (EvalPermission : String → Evaluator) (permissions : Permissions)
    (l : List String) :
    hasAnyLoop EvalPermission permissions l = true ↔
      ∃ action ∈ l, (EvalPermission action).Evaluate permissions = true := by
  induction l with
  | nil => simp [hasAnyLoop]
  | cons action rest ih =>
    simp only [hasAnyLoop, List.mem_cons, exists_eq_or_imp]
    by_cases h : (EvalPermission action).Evaluate permissions = true
    · simp [h]
    · simp [h, ih]

theorem hasAllLoop_eq_true (EvalPermission : String → Evaluator) (permissions : Permissions)
    (l : List String) :
    hasAllLoop EvalPermission permissions l = true ↔
      ∀ action ∈ l, (EvalPermission action).Evaluate permissions = true := by
  induction l with
  | nil => simp [hasAllLoop]
  | cons action rest ih =>
    simp only [hasAllLoop, List.mem_cons, forall_eq_or_imp]
    by_cases h : (EvalPermission action).Evaluate permissions = true
    · simp [h, ih]
    · simp [h]

theorem sliceElems_ParseActions_empty : sliceElems (ParseActions "") = [] := by
  decide

/-- C14 as stated fails for a list of exactly one action: the user has the action
`a`, the string `a,` parses to the single action `a`, and `HasAnyAction` returns
what the given evaluator (here the check of the unparsed string `a,`) returns,
which is false. -/
theorem HasAnyAction_single_uses_evaluator :
    ParseActions "a," = some ["a"] ∧
    (exEvalPermission "a").Evaluate exAccessControl.GetUserPermissions = true ∧
    HasAnyAction exEvalPermission exAccessControl (exEvalPermission "a,") "a," = false := by
  refine ⟨by decide, by decide, by decide⟩

/-- C14, amended: `HasAnyAction` returns true for an action string whose parsed
list is empty (an empty or all-blank string); for exactly one parsed action it
returns what the given evaluator returns on the user's permissions; for two or
more parsed actions it returns true if and only if the user's permissions
satisfy the permission check of at least one of them. -/
theorem HasAnyAction_spec (EvalPermission : String → Evaluator)
    (accessControl : AccessControl) (evaluator : Evaluator) (actions : String) :
    (sliceElems (ParseActions actions) = [] →
      HasAnyAction EvalPermission accessControl evaluator actions = true) ∧
    ((sliceElems (ParseActions actions)).length = 1 →
      HasAnyAction EvalPermission accessControl evaluator actions =
        evaluator.Evaluate accessControl.GetUserPermissions) ∧
    (2 ≤ (sliceElems (ParseActions actions)).length →
      (HasAnyAction EvalPermission accessControl evaluator actions = true ↔
        ∃ action ∈ sliceElems (ParseActions actions),
          (EvalPermission action).Evaluate accessControl.GetUserPermissions = true)) := by
  by_cases he : actions = ""
  · subst he
    simp [HasAnyAction, sliceElems_ParseActions_empty]
  · refine ⟨fun h => ?_, fun h => ?_, fun h => ?_⟩
    · simp [HasAnyAction, he, h]
    · simp [HasAnyAction, he, h]
    · have h0 : (sliceElems (ParseActions actions)).length ≠ 0 := by omega
      have h1 : (sliceElems (ParseActions actions)).length ≠ 1 := by omega
      simp only [HasAnyAction, he, if_false, h0, h1]
      exact hasAnyLoop_eq_true _ _ _

/-- C15 as stated fails for a list of exactly one action: the user has the action
`a`, the string `a,` parses to the single action `a`, and `HasAllActions`
returns what the given evaluator (here the check of the unparsed string `a,`)
returns, which is false. -/
theorem HasAllActions_single_uses_evaluator :
    ParseActions "a," = some ["a"] ∧
    (∀ action ∈ sliceElems (ParseActions "a,"),
      (exEvalPermission action).Evaluate exAccessControl.GetUserPermissions = true) ∧
    HasAllActions exEvalPermission exAccessControl (exEvalPermission "a,") "a," = false := by
  refine ⟨by decide, by decide, by decide⟩

/-- C15, amended: `HasAllActions` returns true for an action string whose parsed
list is empty (an empty or all-blank string); for exactly one parsed action it
returns what the given evaluator returns on the user's permissions; for two or
more parsed actions it returns true if and only if the user's permissions
satisfy the permission check of every one of them. -/
theorem HasAllActions_spec (EvalPermission : String → Evaluator)
    (accessControl : AccessControl) (evaluator : Evaluator) (actions : String) :
    (sliceElems (ParseActions actions) = [] →
      HasAllActions EvalPermission accessControl evaluator actions = true) ∧
    ((sliceElems (ParseActions actions)).length = 1 →
      HasAllActions EvalPermission accessControl evaluator actions =
        evaluator.Evaluate accessControl.GetUserPermissions) ∧
    (2 ≤ (sliceElems (ParseActions actions)).length →
      (HasAllActions EvalPermission accessControl evaluator actions = true ↔
        ∀ action ∈ sliceElems (ParseActions actions),
          (EvalPermission action).Evaluate accessControl.GetUserPermissions = true)) := by
  by_cases he : actions = ""
  · subst he
    simp [HasAllActions, sliceElems_ParseActions_empty]
  · refine ⟨fun h => ?_, fun h => ?_, fun h => ?_⟩
    · simp [HasAllActions, he, h]
    · simp [HasAllActions, he, h]
    · have h0 : (sliceElems (ParseActions actions)).length ≠ 0 := by omega
      have h1 : (sliceElems (ParseActions actions)).length ≠ 1 := by omega
      simp only [HasAllActions, he, if_false, h0, h1]
      exact hasAllLoop_eq_true _ _ _

/-! ## Properties of the lazy loading of alert-rule fields -/

theorem splitRunes_mem (sep : Char) (l : List Char) :
    ∀ piece ∈ splitRunes sep l, ∀ c ∈ piece, c ∈ l := by
  induction l with
  | nil => simp [splitRunes]
  | cons c cs ih =>
    intro piece hp d hd
    unfold splitRunes at hp
    split at hp
    · rcases List.mem_cons.1 hp with rfl | hp
      · simp at hd
      · exact List.mem_cons_of_mem _ (ih piece hp d hd)
    · split at hp
      · simp only [List.mem_singleton] at hp
        subst hp
        simp only [List.mem_singleton] at hd
        subst hd
        exact List.mem_cons_self _ _
      · rename_i p ps heq
        rcases List.mem_cons.1 hp with rfl | hp
        · rcases List.mem_cons.1 hd with rfl | hd
          · exact List.mem_cons_self _ _
          · exact List.mem_cons_of_mem _ (ih p (by rw [heq]; exact List.mem_cons_self _ _) d hd)
        · exact List.mem_cons_of_mem _
            (ih piece (by rw [heq]; exact List.mem_cons_of_mem _ hp) d hd)

theorem stringsToLower_field (toLower : Char → Char)
    (hidem : ∀ c, toLower (toLower c) = toLower c) (s field : String)
    (h : field ∈ stringsSplit (stringsToLower toLower s) ',') :
    stringsToLower toLower field = field := by
  simp only [stringsSplit, stringsToLower, List.mem_map] at h
  obtain ⟨piece, hp, rfl⟩ := h
  have hfix : ∀ c ∈ piece, toLower c = c := by
    intro c hc
    obtain ⟨c0, -, rfl⟩ := List.mem_map.1 (splitRunes_mem ',' _ piece hp c hc)
    exact hidem c0
  simp only [stringsToLower]
  congr 1
  exact (List.map_congr_left hfix).trans (List.map_id _)

theorem selectField_flags (sel : FieldSelection) (field : String) :
    ((selectField sel field).IncludeData = true ↔
      sel.IncludeData = true ∨ field = "data" ∨ field = "queries") ∧
    ((selectField sel field).IncludeAnnotations = true ↔
      sel.IncludeAnnotations = true ∨ field = "annotations") ∧
    ((selectField sel field).IncludeLabels = true ↔
      sel.IncludeLabels = true ∨ field = "labels") ∧
    ((selectField sel field).IncludeNotificationSettings = true ↔
      sel.IncludeNotificationSettings = true ∨ field = "notification" ∨
        field = "notifications" ∨ field = "notification_settings") ∧
    ((selectField sel field).IncludeMetadata = true ↔
      sel.IncludeMetadata = true ∨ field = "metadata") := by
  unfold selectField
  split_ifs with h1 h2 h3 h4 h5
  · rcases h1 with rfl | rfl <;> simp
  · subst h2; simp
  · subst h3; simp
  · rcases h4 with rfl | rfl | rfl <;> simp
  · subst h5; simp
  · simp only [not_or] at h1 h4
    simp [h1.1, h1.2, h2, h3, h4.1, h4.2.1, h4.2.2, h5]

theorem iff_or_step {X S s A E : Prop} (b : X ↔ S ∨ E) (a : S ↔ s ∨ A) :
    X ↔ s ∨ A ∨ E := by
  rw [b, a, or_assoc]

theorem parseFieldsLoop_flags (toLower : Char → Char) (fields : List String)
    (sel : FieldSelection) :
    ((parseFieldsLoop toLower sel fields).IncludeData = true ↔
      sel.IncludeData = true ∨ ∃ field ∈ fields,
        stringsTrimSpace (stringsToLower toLower field) = "data" ∨
        stringsTrimSpace (stringsToLower toLower field) = "queries") ∧
    ((parseFieldsLoop toLower sel fields).IncludeAnnotations = true ↔
      sel.IncludeAnnotations = true ∨ ∃ field ∈ fields,
        stringsTrimSpace (stringsToLower toLower field) = "annotations") ∧
    ((parseFieldsLoop toLower sel fields).IncludeLabels = true ↔
      sel.IncludeLabels = true ∨ ∃ field ∈ fields,
        stringsTrimSpace (stringsToLower toLower field) = "labels") ∧
    ((parseFieldsLoop toLower sel fields).IncludeNotificationSettings = true ↔
      sel.IncludeNotificationSettings = true ∨ ∃ field ∈ fields,
        stringsTrimSpace (stringsToLower toLower field) = "notification" ∨
        stringsTrimSpace (stringsToLower toLower field) = "notifications" ∨
        stringsTrimSpace (stringsToLower toLower field) = "notification_settings") ∧
    ((parseFieldsLoop toLower sel fields).IncludeMetadata = true ↔
      sel.IncludeMetadata = true ∨ ∃ field ∈ fields,
        stringsTrimSpace (stringsToLower toLower field) = "metadata") := by
  induction fields generalizing sel with
  | nil => simp [parseFieldsLoop]
  | cons field fields ih =>
    obtain ⟨a1, a2, a3, a4, a5⟩ :=
      selectField_flags sel (stringsTrimSpace (stringsToLower toLower field))
    obtain ⟨b1, b2, b3, b4, b5⟩ :=
      ih (selectField sel (stringsTrimSpace (stringsToLower toLower field)))
    simp only [parseFieldsLoop, List.mem_cons, exists_eq_or_imp]
    refine ⟨?_, ?_, ?_, ?_, ?_⟩
    · exact iff_or_step b1 a1
    · exact iff_or_step b2 a2
    · exact iff_or_step b3 a3
    · exact iff_or_step b4 a4
    · exact iff_or_step b5 a5

theorem Char_toLower_idem (c : Char) : Char.toLower (Char.toLower c) = Char.toLower c := by
  by_cases h : c.toNat ≥ 65 ∧ c.toNat ≤ 90
  · have key : ∀ n : Nat, 65 ≤ n → n ≤ 90 →
        Char.toLower (Char.toLower (Char.ofNat n)) = Char.toLower (Char.ofNat n) := by
      intro n h1 h2
      interval_cases n <;> rfl
    have := key c.toNat h.1 h.2
    rwa [Char.ofNat_toNat] at this
  · have hc : Char.toLower c = c := by
      simp only [Char.toLower]
      rw [if_neg h]
    rw [hc, hc]

/-- C16: with `f` the lower-cased value of the `fields` parameter,
`ParseFieldSelection` returns all five flags false when `f` is `minimal` or
`core`, all five true when `f` is `all` or empty (or the parameter is absent),
and otherwise sets each flag exactly when one of its names occurs among the
comma-separated, trimmed tokens of `f`.  The rune map behind `strings.ToLower`
is assumed idempotent, as lower-casing is. -/
theorem ParseFieldSelection_spec (toLower : Char → Char)
    (hidem : ∀ c, toLower (toLower c) = toLower c) (query : Values) (f : String)
    (hf : f = stringsToLower toLower (query.Get "fields")) :
    (f = "minimal" ∨ f = "core" →
      ParseFieldSelection toLower query = ⟨false, false, false, false, false⟩) ∧
    (f = "all" ∨ f = "" →
      ParseFieldSelection toLower query = ⟨true, true, true, true, true⟩) ∧
    (query.entries "fields" = [] →
      ParseFieldSelection toLower query = ⟨true, true, true, true, true⟩) ∧
    (f ≠ "minimal" → f ≠ "core" → f ≠ "all" → f ≠ "" →
      ((ParseFieldSelection toLower query).IncludeData = true ↔
        "data" ∈ fieldTokens f ∨ "queries" ∈ fieldTokens f) ∧
      ((ParseFieldSelection toLower query).IncludeAnnotations = true ↔
        "annotations" ∈ fieldTokens f) ∧
      ((ParseFieldSelection toLower query).IncludeLabels = true ↔
        "labels" ∈ fieldTokens f) ∧
      ((ParseFieldSelection toLower query).IncludeNotificationSettings = true ↔
        "notification" ∈ fieldTokens f ∨ "notifications" ∈ fieldTokens f ∨
          "notification_settings" ∈ fieldTokens f) ∧
      ((ParseFieldSelection toLower query).IncludeMetadata = true ↔
        "metadata" ∈ fieldTokens f)) := by
  have hall : f = "all" ∨ f = "" →
      ParseFieldSelection toLower query = ⟨true, true, true, true, true⟩ := by
    intro h
    have h1 : ¬ (f = "minimal" ∨ f = "core") := by
      rcases h with rfl | rfl <;> decide
    simp only [ParseFieldSelection, ← hf, h1, h, if_true, if_false]
    rfl
  refine ⟨fun h => ?_, hall, fun h => ?_, fun h1 h2 h3 h4 => ?_⟩
  · simp only [ParseFieldSelection, ← hf, h, if_true]
    rfl
  · apply hall
    right
    rw [hf]
    simp [Values.Get, h, stringsToLower]
  · have hloop : ParseFieldSelection toLower query =
        parseFieldsLoop toLower MinimalFieldSelection (stringsSplit f ',') := by
      simp only [ParseFieldSelection, ← hf, h1, h2, h3, h4, or_self, if_false]
    have hfix : ∀ field ∈ stringsSplit f ',',
        stringsTrimSpace (stringsToLower toLower field) = stringsTrimSpace field := by
      intro field hfield
      rw [hf] at hfield
      rw [stringsToLower_field toLower hidem _ field hfield]
    have hmem : ∀ name : String, name ∈ fieldTokens f ↔
        ∃ field ∈ stringsSplit f ',',
          stringsTrimSpace (stringsToLower toLower field) = name := by
      intro name
      simp only [fieldTokens, List.mem_map]
      constructor
      · rintro ⟨field, hfield, rfl⟩
        exact ⟨field, hfield, hfix field hfield⟩
      · rintro ⟨field, hfield, rfl⟩
        exact ⟨field, hfield, (hfix field hfield).symm⟩
    obtain ⟨b1, b2, b3, b4, b5⟩ :=
      parseFieldsLoop_flags toLower (stringsSplit f ',') MinimalFieldSelection
    rw [hloop]
    simp only [hmem]
    refine ⟨b1.trans ?_, b2.trans ?_, b3.trans ?_, b4.trans ?_, b5.trans ?_⟩
    · simp only [MinimalFieldSelection, Bool.false_eq_true, false_or]
      constructor
      · rintro ⟨field, hm, h | h⟩
        · exact Or.inl ⟨field, hm, h⟩
        · exact Or.inr ⟨field, hm, h⟩
      · rintro (⟨field, hm, h⟩ | ⟨field, hm, h⟩)
        · exact ⟨field, hm, Or.inl h⟩
        · exact ⟨field, hm, Or.inr h⟩
    · simp only [MinimalFieldSelection, Bool.false_eq_true, false_or]
    · simp only [MinimalFieldSelection, Bool.false_eq_true, false_or]
    · simp only [MinimalFieldSelection, Bool.false_eq_true, false_or]
      constructor
      · rintro ⟨field, hm, h | h | h⟩
        · exact Or.inl ⟨field, hm, h⟩
        · exact Or.inr (Or.inl ⟨field, hm, h⟩)
        · exact Or.inr (Or.inr ⟨field, hm, h⟩)
      · rintro (⟨field, hm, h⟩ | ⟨field, hm, h⟩ | ⟨field, hm, h⟩)
        · exact ⟨field, hm, Or.inl h⟩
        · exact ⟨field, hm, Or.inr (Or.inl h)⟩
        · exact ⟨field, hm, Or.inr (Or.inr h)⟩
    · simp only [MinimalFieldSelection, Bool.false_eq_true, false_or]

/-- C16 at the query `fields=Data, LABELS ,foo` with ASCII lower-casing: the
tokens of the lower-cased value are `data`, `labels` and `foo`, and exactly
the data and labels flags are set. -/
theorem ParseFieldSelection_spec_witness :
    fieldTokens "data, labels ,foo" = ["data", "labels", "foo"] ∧
    ParseFieldSelection Char.toLower (exQuery "Data, LABELS ,foo") =
      ⟨true, false, true, false, false⟩ ∧
    ((ParseFieldSelection Char.toLower (exQuery "Data, LABELS ,foo")).IncludeData = true ↔
      "data" ∈ fieldTokens "data, labels ,foo" ∨ "queries" ∈ fieldTokens "data, labels ,foo") :=
  ⟨by decide, by decide,
    ((ParseFieldSelection_spec Char.toLower Char_toLower_idem (exQuery "Data, LABELS ,foo")
      "data, labels ,foo" (by decide)).2.2.2
      (by decide) (by decide) (by decide) (by decide)).1⟩

/-- C17: `ApplyFieldSelection` keeps every core field of the rule; each of `Data`,
`Annotations`, `Labels`, `NotificationSettings` and `Metadata` is nil/empty
afterwards when its flag is false and is unchanged when its flag is true; in
particular `DefaultFieldSelection` leaves the rule unchanged. -/
theorem ApplyFieldSelection_frame (rule : AlertRule) (selection : FieldSelection) :
    ApplyFieldSelection rule selection =
      { rule with
        Data := if selection.IncludeData then rule.Data else none,
        Annotations := if selection.IncludeAnnotations then rule.Annotations else none,
        Labels := if selection.IncludeLabels then rule.Labels else none,
        NotificationSettings :=
          if selection.IncludeNotificationSettings then rule.NotificationSettings else none,
        Metadata := if selection.IncludeMetadata then rule.Metadata else ⟨false, none⟩ } ∧
    (ApplyFieldSelection rule selection).ID = rule.ID ∧
    (ApplyFieldSelection rule selection).OrgID = rule.OrgID ∧
    (ApplyFieldSelection rule selection).UID = rule.UID ∧
    (ApplyFieldSelection rule selection).Title = rule.Title ∧
    (ApplyFieldSelection rule selection).Condition = rule.Condition ∧
    (ApplyFieldSelection rule selection).NamespaceUID = rule.NamespaceUID ∧
    (ApplyFieldSelection rule selection).RuleGroup = rule.RuleGroup ∧
    (ApplyFieldSelection rule selection).IntervalSeconds = rule.IntervalSeconds ∧
    (ApplyFieldSelection rule selection).Version = rule.Version ∧
    (ApplyFieldSelection rule selection).Updated = rule.Updated ∧
    (ApplyFieldSelection rule selection).IsPaused = rule.IsPaused ∧
    ApplyFieldSelection rule DefaultFieldSelection = rule := by
  obtain ⟨d, a, l, n, m⟩ := selection
  cases d <;> cases a <;> cases l <;> cases n <;> cases m <;>
    simp [ApplyFieldSelection, DefaultFieldSelection]

/-! ## Properties of the ETag caching -/

theorem SetCacheHeaders_spec (c : ReqContext) (etag : String) (ttlSeconds : Int) :
    (SetCacheHeaders c etag ttlSeconds).Resp.header.Get ETagHeader = etag ∧
    (SetCacheHeaders c etag ttlSeconds).Resp.header.Get CacheControlHeader =
      "private, max-age=" ++ toString ttlSeconds ∧
    (SetCacheHeaders c etag ttlSeconds).Resp.writeHeaderCalls = c.Resp.writeHeaderCalls ∧
    (SetCacheHeaders c etag ttlSeconds).ReqHeader = c.ReqHeader := by
  have h1 : ("ETag" != "Cache-Control") = true := by decide
  have h2 : ("Cache-Control" == "ETag") = false := by decide
  simp [SetCacheHeaders, Header.Set, Header.Get, ETagHeader, CacheControlHeader,
    List.filter, List.find?, h1, h2]

/-- C18: `HandleCachedResponse` returns true exactly when it passed 304 to
`WriteHeader`, which is exactly when caching is enabled and the request's
`If-None-Match` is non-empty and equal to the ETag generated from the rules.
When it returns false with caching enabled, the response has the `ETag` header
set to that ETag and `Cache-Control` to `private, max-age=<TTLSeconds>`, and no
status was written; with caching disabled the context is left as it was. -/
theorem HandleCachedResponse_spec (lib : ETagLib) (c : ReqContext) (rules : List AlertRule)
    (config : ETagCacheConfig) :
    ((HandleCachedResponse lib c rules config).2 = true ↔
      (HandleCachedResponse lib c rules config).1.Resp.writeHeaderCalls =
        c.Resp.writeHeaderCalls ++ [304]) ∧
    ((HandleCachedResponse lib c rules config).2 = true ↔
      config.Enabled = true ∧ c.ReqHeader.Get "If-None-Match" ≠ "" ∧
        c.ReqHeader.Get "If-None-Match" = generateETagFromRules lib rules) ∧
    ((HandleCachedResponse lib c rules config).2 = false →
      (HandleCachedResponse lib c rules config).1.Resp.writeHeaderCalls =
        c.Resp.writeHeaderCalls) ∧
    ((HandleCachedResponse lib c rules config).2 = false → config.Enabled = true →
      (HandleCachedResponse lib c rules config).1.Resp.header.Get "ETag" =
        generateETagFromRules lib rules ∧
      (HandleCachedResponse lib c rules config).1.Resp.header.Get "Cache-Control" =
        "private, max-age=" ++ toString config.TTLSeconds) ∧
    (config.Enabled = false → HandleCachedResponse lib c rules config = (c, false)) := by
  obtain ⟨s1, s2, s3, -⟩ := SetCacheHeaders_spec c (generateETagFromRules lib rules)
    config.TTLSeconds
  cases he : config.Enabled
  · simp [HandleCachedResponse, he]
  · cases hm : CheckETagMatch c (generateETagFromRules lib rules)
    · have hm' := hm
      simp only [CheckETagMatch, IfNoneMatchHeader, Bool.and_eq_false_iff, bne_eq_false_iff_eq,
        beq_eq_false_iff_ne] at hm'
      have hno : ¬ (c.ReqHeader.Get "If-None-Match" ≠ "" ∧
          c.ReqHeader.Get "If-None-Match" = generateETagFromRules lib rules) := by
        rintro ⟨h1, h2⟩
        rcases hm' with h | h
        · exact h1 h
        · exact h h2
      have hval : HandleCachedResponse lib c rules config =
          (SetCacheHeaders c (generateETagFromRules lib rules) config.TTLSeconds, false) := by
        simp [HandleCachedResponse, he, hm]
      rw [hval]
      refine ⟨?_, ?_, fun _ => s3, fun _ _ => ⟨s1, s2⟩, fun h => by simp at h⟩
      · simp only [s3]
        simp
      · constructor
        · intro h
          simp at h
        · intro h
          exact absurd h.2 hno
    · have hm' := hm
      simp only [CheckETagMatch, IfNoneMatchHeader, Bool.and_eq_true, bne_iff_ne,
        beq_iff_eq] at hm'
      have hval : HandleCachedResponse lib c rules config =
          ({ c with Resp := { c.Resp with
              writeHeaderCalls := c.Resp.writeHeaderCalls ++ [304] } }, true) := by
        simp [HandleCachedResponse, he, hm, StatusNotModified]
      rw [hval]
      refine ⟨by simp, ?_, fun h => by simp at h, fun h => by simp at h,
        fun h => by simp at h⟩
      exact ⟨fun _ => ⟨rfl, hm'.1, hm'.2⟩, fun _ => rfl⟩

/-- The table of cases of C18 at a concrete request: a matching `If-None-Match`
gives 304, a different rule set gives the two cache headers. -/
theorem HandleCachedResponse_examples :
    HandleCachedResponse exETagLib exCachedRequest [exRule] ⟨true, 300⟩ =
      (⟨exCachedRequest.ReqHeader, ⟨⟨[]⟩, [304]⟩⟩, true) ∧
    HandleCachedResponse exETagLib exCachedRequest [] ⟨true, 300⟩ =
      (⟨exCachedRequest.ReqHeader,
        ⟨⟨[("Cache-Control", ["private, max-age=300"]), ("ETag", ["\"empty\""])]⟩, []⟩⟩,
        false) ∧
    HandleCachedResponse exETagLib exCachedRequest [exRule] ⟨false, 300⟩ =
      (exCachedRequest, false) := by
  refine ⟨by decide, by decide, by decide⟩

/-! ## Properties of the audit policy -/

/-- C19: the default Grafana policy rule evaluator returns level Metadata, with the
stages RequestReceived, ResponseStarted and Panic omitted (every stage except
ResponseComplete), if and only if the request is a resource request whose verb
is not the watch verb; for every other request it returns level None. -/
theorem EvaluatePolicyRule_spec (VerbWatch : String) (attrs : Attributes) :
    ((EvaluatePolicyRule VerbWatch attrs).Level = Level.Metadata ↔
      attrs.IsResourceRequest = true ∧ attrs.Verb ≠ VerbWatch) ∧
    ((EvaluatePolicyRule VerbWatch attrs).Level = Level.Metadata →
      (EvaluatePolicyRule VerbWatch attrs).OmitStages =
        [Stage.RequestReceived, Stage.ResponseStarted, Stage.Panic] ∧
      ∀ stage, stage ∈ (EvaluatePolicyRule VerbWatch attrs).OmitStages ↔
        stage ≠ Stage.ResponseComplete) ∧
    (¬ (attrs.IsResourceRequest = true ∧ attrs.Verb ≠ VerbWatch) →
      EvaluatePolicyRule VerbWatch attrs = ⟨Level.None, [], false⟩) ∧
    (attrs.IsResourceRequest = true ∧ attrs.Verb ≠ VerbWatch →
      EvaluatePolicyRule VerbWatch attrs =
        ⟨Level.Metadata, [Stage.RequestReceived, Stage.ResponseStarted, Stage.Panic], true⟩) := by
  have hstage : ∀ stage : Stage,
      stage ∈ [Stage.RequestReceived, Stage.ResponseStarted, Stage.Panic] ↔
        stage ≠ Stage.ResponseComplete := by
    intro stage
    cases stage <;> simp
  unfold EvaluatePolicyRule
  cases hr : attrs.IsResourceRequest
  · simp
  · by_cases hv : attrs.Verb = VerbWatch
    · simp [hv]
    · simp [hv, hstage]

/-! ## Properties of the resource-permission lookup -/

theorem String_append_right_cancel (a b c : String) (h : a ++ c = b ++ c) : a = b := by
  have := congrArg String.data h
  simp only [String.data_append, List.append_cancel_right_eq] at this
  exact String.ext this

theorem apiGroup_ne (resource : String) :
    (if resource = "folders" then "folder.grafana.app"
      else if resource = "dashboards" then "dashboard.grafana.app"
      else resource ++ ".grafana.app") ≠ resource := by
  split_ifs with h1 h2
  · subst h1; decide
  · subst h2; decide
  · intro h
    have := congrArg String.length h
    simp [String.length_append] at this
    have h12 : (".grafana.app" : String).length = 12 := by decide
    omega

/-- C20, what the code does: the name that `getResourcePermissionsFromK8s` passes to
the k8s `Get` is `<resource>.<resource>.<resource-uid>`, which for every
resource kind and ID differs from the documented name built by
`buildResourcePermissionName`; for `folders` and `folder-abc123` it looks up
`folders.folders.folder-abc123`, not `folder.grafana.app.folders.folder-abc123`,
so a permission stored under the documented name is not found. -/
theorem getResourcePermissionsFromK8s_name (a : api) (resourceID : String) :
    a.resourcePermName resourceID ≠ a.buildResourcePermissionName resourceID ∧
    (exFoldersApi.getResourcePermissionsFromK8s exK8s "default" "folder-abc123").calls =
      [.getRestConfig, .newForConfig, .get "default" "folders.folders.folder-abc123"] ∧
    exFoldersApi.buildResourcePermissionName "folder-abc123" =
      "folder.grafana.app.folders.folder-abc123" ∧
    (exFoldersApi.getResourcePermissionsFromK8s exK8s "default" "folder-abc123").ret =
      (some [], none) := by
  refine ⟨?_, by decide, by decide, by decide⟩
  intro h
  simp only [api.resourcePermName, api.buildResourcePermissionName, sprintfDotted,
    String.append_assoc] at h
  exact apiGroup_ne _ (String_append_right_cancel _ _ _ h).symm

/-! ## Properties of the manifest conversion -/

theorem mem_keys_mapSet (m : List (String × Option Schema)) (key : String)
    (value : Option Schema) (k : String) :
    k ∈ (mapSet m key value).map Prod.fst ↔ k = key ∨ k ∈ m.map Prod.fst := by
  simp only [mapSet, List.map_cons, List.mem_cons, List.mem_map, List.mem_filter, bne_iff_ne,
    ne_eq]
  constructor
  · rintro (h | ⟨entry, ⟨hmem, -⟩, rfl⟩)
    · exact Or.inl h
    · exact Or.inr ⟨entry, hmem, rfl⟩
  · rintro (h | ⟨entry, hmem, rfl⟩)
    · exact Or.inl h
    · by_cases hk : entry.1 = key
      · exact Or.inl hk
      · exact Or.inr ⟨entry, ⟨hmem, hk⟩, rfl⟩

theorem convertVersions_keys (e : ManifestEnv) (kind : ManifestKind)
    (versions : List ManifestKindVersion) (schemas out : List (String × Option Schema))
    (h : convertVersions e kind schemas versions = .ok out) (k : String) :
    k ∈ out.map Prod.fst ↔
      k ∈ schemas.map Prod.fst ∨
        ∃ v ∈ versions, v.Schema ≠ none ∧ k = kind.Kind ++ v.Name := by
  induction versions generalizing schemas with
  | nil =>
    simp only [convertVersions, Except.ok.injEq] at h
    subst h
    simp
  | cons version versions ih =>
    unfold convertVersions at h
    split at h
    · rename_i hnil
      rw [ih schemas h]
      simp [hnil]
    · rename_i vs hsome
      split at h
      · cases h
      · rw [ih _ h, mem_keys_mapSet]
        simp only [List.mem_cons, exists_eq_or_imp, hsome, ne_eq, reduceCtorEq,
          not_false_eq_true, true_and]
        tauto

theorem convertVersions_nil_schemas (e : ManifestEnv) (kind : ManifestKind)
    (versions : List ManifestKindVersion) (schemas : List (String × Option Schema))
    (h : ∀ v ∈ versions, v.Schema = none) :
    convertVersions e kind schemas versions = .ok schemas := by
  induction versions with
  | nil => rfl
  | cons version versions ih =>
    unfold convertVersions
    rw [h version (List.mem_cons_self _ _)]
    exact ih (fun v hv => h v (List.mem_cons_of_mem _ hv))

theorem convertKinds_keys (e : ManifestEnv) (kinds : List ManifestKind)
    (schemas out : List (String × Option Schema))
    (h : convertKinds e schemas kinds = .ok out) (k : String) :
    k ∈ out.map Prod.fst ↔
      k ∈ schemas.map Prod.fst ∨
        ∃ kind ∈ kinds, ∃ v ∈ kind.Versions, v.Schema ≠ none ∧ k = kind.Kind ++ v.Name := by
  induction kinds generalizing schemas with
  | nil =>
    simp only [convertKinds, Except.ok.injEq] at h
    subst h
    simp
  | cons kind kinds ih =>
    unfold convertKinds at h
    split at h
    · cases h
    · rename_i schemas1 h1
      rw [ih schemas1 h, convertVersions_keys e kind kind.Versions schemas schemas1 h1]
      simp only [List.mem_cons, exists_eq_or_imp]
      exact or_assoc

theorem convertKinds_nil_schemas (e : ManifestEnv) (kinds : List ManifestKind)
    (schemas : List (String × Option Schema))
    (h : ∀ kind ∈ kinds, ∀ v ∈ kind.Versions, v.Schema = none) :
    convertKinds e schemas kinds = .ok schemas := by
  induction kinds with
  | nil => rfl
  | cons kind kinds ih =>
    unfold convertKinds
    rw [convertVersions_nil_schemas e kind kind.Versions schemas
      (h kind (List.mem_cons_self _ _))]
    exact ih (fun kind' hk => h kind' (List.mem_cons_of_mem _ hk))

theorem ConvertManifest_error_nil (e : ManifestEnv) (manifestData : Option ManifestData) :
    ((ConvertManifestToOpenAPIExtension e manifestData).2 ≠ none →
      (ConvertManifestToOpenAPIExtension e manifestData).1 = none) ∧
    ((ConvertManifestToOpenAPIExtension e manifestData).2 = none →
      (ConvertManifestToOpenAPIExtension e manifestData).1 ≠ none) := by
  unfold ConvertManifestToOpenAPIExtension
  cases manifestData with
  | none => simp
  | some m =>
    simp only
    cases convertKinds e [] m.Kinds <;> simp

/-- C21: `ConvertManifestToOpenAPIExtension` returns no extension and the error
"manifest data is nil" for a nil manifest; for a manifest in which every kind
version has a nil schema (also one with no kinds) it returns no error and an
extension whose `Schemas` map is empty; whenever it returns an extension, the
keys of `Schemas` are exactly the strings `Kind` followed by the version name
of the versions with a non-nil schema; and an error always comes with a nil
extension. -/
theorem ConvertManifestToOpenAPIExtension_spec (e : ManifestEnv) :
    ConvertManifestToOpenAPIExtension e none =
      (none, some (Error.new "manifest data is nil")) ∧
    (Error.new "manifest data is nil").text = "manifest data is nil" ∧
    (∀ m : ManifestData, (∀ kind ∈ m.Kinds, ∀ v ∈ kind.Versions, v.Schema = none) →
      ConvertManifestToOpenAPIExtension e (some m) = (some ⟨[]⟩, none)) ∧
    (∀ (m : ManifestData) (ext : DataSourceOpenAPIExtension),
      ConvertManifestToOpenAPIExtension e (some m) = (some ext, none) →
      ∀ k, k ∈ ext.Schemas.map Prod.fst ↔
        ∃ kind ∈ m.Kinds, ∃ v ∈ kind.Versions, v.Schema ≠ none ∧ k = kind.Kind ++ v.Name) ∧
    (∀ manifestData, (ConvertManifestToOpenAPIExtension e manifestData).2 ≠ none →
      (ConvertManifestToOpenAPIExtension e manifestData).1 = none) := by
  refine ⟨rfl, rfl, fun m h => ?_, fun m ext h k => ?_,
    fun md => (ConvertManifest_error_nil e md).1⟩
  · simp [ConvertManifestToOpenAPIExtension, convertKinds_nil_schemas e m.Kinds [] h]
  · unfold ConvertManifestToOpenAPIExtension at h
    simp only at h
    split at h
    · cases h
    · rename_i schemas hk
      simp only [Prod.mk.injEq, Option.some.injEq, and_true] at h
      subst h
      rw [convertKinds_keys e m.Kinds [] schemas hk k]
      simp

/-- The cases of the three tests of `loader_test.go`, and two manifests with a
schema: one converted under the key `DataSourceConfigv2`, one whose
conversion fails. -/
theorem TestManifestConverter :
    ConvertManifestToOpenAPIExtension exManifestEnv (some exManifestNilSchema) =
      (some ⟨[]⟩, none) ∧
    ConvertManifestToOpenAPIExtension exManifestEnv none =
      (none, some (Error.new "manifest data is nil")) ∧
    ConvertManifestToOpenAPIExtension exManifestEnv (some exManifestEmptyKinds) =
      (some ⟨[]⟩, none) ∧
    ConvertManifestToOpenAPIExtension exManifestEnv (some exManifestMixed) =
      (some ⟨[("DataSourceConfigv2", some ⟨12⟩)]⟩, none) ∧
    ConvertManifestToOpenAPIExtension exManifestEnv (some exManifestBroken) =
      (none, some (Error.wrapped
        "failed to convert schema for kind DataSourceConfig version v1: "
        (Error.wrapped "failed to convert schema using AsKubeOpenAPI: "
          (Error.new "unsupported schema")))) := by
  refine ⟨by decide, by decide, by decide, by decide, by decide⟩

/-- C22: for a plugin without manifest data `GetOpenAPIExtension` returns a nil
extension and a nil error; and whenever it returns a non-nil error, the plugin
has manifest data whose conversion failed, and the error wraps the conversion
error (and no extension is returned). -/
theorem GetOpenAPIExtension_spec (e : ManifestEnv) (plugin : Plugin) :
    (plugin.ManifestData = none → GetOpenAPIExtension e plugin = (none, none)) ∧
    (∀ err, (GetOpenAPIExtension e plugin).2 = some err →
      ∃ m cause, plugin.ManifestData = some m ∧
        ConvertManifestToOpenAPIExtension e (some m) = (none, some cause) ∧
        err = Error.wrapped "failed to get extension from manifest: "
          (Error.wrapped "failed to convert manifest to OpenAPI extension: " cause) ∧
        (GetOpenAPIExtension e plugin).1 = none) := by
  constructor
  · intro h
    simp [GetOpenAPIExtension, GetExtensionForPlugin, h]
  · intro err herr
    cases hm : plugin.ManifestData with
    | none => simp [GetOpenAPIExtension, GetExtensionForPlugin, hm] at herr
    | some m =>
      have hnil := ConvertManifest_error_nil e (some m)
      rcases hc : ConvertManifestToOpenAPIExtension e (some m) with ⟨ext, cerr⟩
      rw [hc] at hnil
      cases cerr with
      | some cause =>
        have hext : ext = none := hnil.1 (by simp)
        subst hext
        have hval : GetOpenAPIExtension e plugin =
            (none, some (Error.wrapped "failed to get extension from manifest: "
              (Error.wrapped "failed to convert manifest to OpenAPI extension: " cause))) := by
          simp [GetOpenAPIExtension, GetExtensionForPlugin, hm, hc]
        rw [hval] at herr ⊢
        simp only [Option.some.injEq] at herr
        exact ⟨m, cause, rfl, hc, herr.symm, rfl⟩
      | none =>
        cases ext with
        | none => simp [GetOpenAPIExtension, GetExtensionForPlugin, hm, hc] at herr
        | some x => simp [GetOpenAPIExtension, GetExtensionForPlugin, hm, hc] at herr

/-- The tests of `factory_test.go` (a plugin without manifest data), and a plugin
whose manifest cannot be converted. -/
theorem TestExtensionFactory :
    GetOpenAPIExtension exManifestEnv ⟨"test-plugin", none⟩ = (none, none) ∧
    GetOpenAPIExtension exManifestEnv ⟨"test-plugin", some exManifestMixed⟩ =
      (some ⟨[("DataSourceConfigv2", some ⟨12⟩)]⟩, none) ∧
    (GetOpenAPIExtension exManifestEnv ⟨"test-plugin", some exManifestBroken⟩).1 = none ∧
    (GetOpenAPIExtension exManifestEnv ⟨"test-plugin", some exManifestBroken⟩).2 ≠ none := by
  refine ⟨by decide, by decide, by decide, by decide⟩

/-! ## Properties of the authorization of receiver testing -/

/-- C23, what the code does: on any other resource `Authorize` returns
`DecisionNoOpinion` with no error, and without a requester it returns
`DecisionDeny`; but on the receiver-testing resource with a requester found it
returns `DecisionAllow` whatever the access-control evaluation returns, also
when the evaluation returns false (with the evaluation's error, if any): at
`exAuthorizeDenied` the evaluation is false without error and the decision is
`DecisionAllow` with a nil error. -/
theorem Authorize_allows_without_permission (env : AuthorizeEnv) (attr : Attributes) :
    (attr.Resource ≠ env.ReceiverTestingResource →
      Authorize env attr = (Decision.DecisionNoOpinion, "", none)) ∧
    (attr.Resource = env.ReceiverTestingResource → ∀ err, env.GetRequester = .error err →
      Authorize env attr = (Decision.DecisionDeny, "valid user is required", some err)) ∧
    (attr.Resource = env.ReceiverTestingResource → ∀ user, env.GetRequester = .ok user →
      (Authorize env attr).1 = Decision.DecisionAllow ∧
      ((env.Evaluate user (AuthEvaluator.EvalAny
          [AuthEvaluator.EvalPermission env.ActionAlertingNotificationsWrite,
            AuthEvaluator.EvalPermission env.ActionAlertingReceiversTest])).1 = false →
        Authorize env attr = (Decision.DecisionAllow, "",
          (env.Evaluate user (AuthEvaluator.EvalAny
            [AuthEvaluator.EvalPermission env.ActionAlertingNotificationsWrite,
              AuthEvaluator.EvalPermission env.ActionAlertingReceiversTest])).2))) ∧
    (exAuthorizeDenied.Evaluate ⟨7⟩ (AuthEvaluator.EvalAny
        [AuthEvaluator.EvalPermission "alert.notifications:write",
          AuthEvaluator.EvalPermission "alert.notifications.receivers:test"]) = (false, none) ∧
      Authorize exAuthorizeDenied exReceiverTestingAttr = (Decision.DecisionAllow, "", none)) := by
  refine ⟨fun h => ?_, fun h err herr => ?_, fun h user huser => ?_, rfl, by decide⟩
  · simp [Authorize, h]
  · simp [Authorize, h, herr]
  · simp only [Authorize, h, ne_eq, not_true_eq_false, if_false, huser]
    split_ifs with hok
    · exact ⟨rfl, fun hf => Bool.noConfusion (hok.symm.trans hf)⟩
    · exact ⟨rfl, fun _ => rfl⟩

/-! ## Properties of the InfluxDB SQL handler -/

theorem QueryDataResponse_has_set (qd : QueryDataResponse) (refID : String)
    (response : DataResponse) (k : String) :
    (qd.set refID response).has k = true ↔ k = refID ∨ qd.has k = true := by
  simp only [QueryDataResponse.has, QueryDataResponse.set, List.any_cons, Bool.or_eq_true,
    beq_iff_eq, List.any_eq_true, List.mem_filter, bne_iff_ne, ne_eq]
  constructor
  · rintro (h | ⟨entry, ⟨hmem, -⟩, he⟩)
    · exact Or.inl h.symm
    · exact Or.inr ⟨entry, hmem, he⟩
  · rintro (h | ⟨entry, hmem, he⟩)
    · exact Or.inl h.symm
    · by_cases hk : entry.1 = refID
      · exact Or.inl (hk.symm.trans he)
      · exact Or.inr ⟨entry, ⟨hmem, hk⟩, he⟩

theorem handleSQLQueries_keeps (env : SQLEnv) (queries : List DataQuery)
    (qd : QueryDataResponse) (k : String) (h : qd.has k = true) :
    (handleSQLQueries env qd queries).has k = true := by
  induction queries generalizing qd with
  | nil => exact h
  | cons q queries ih =>
    have hset : ∀ response, (qd.set q.RefID response).has k = true :=
      fun response => (QueryDataResponse_has_set qd q.RefID response k).2 (Or.inr h)
    unfold handleSQLQueries
    split
    · exact ih _ (hset _)
    · split
      · exact hset _
      · split
        · exact ih _ (hset _)
        · split
          · exact ih _ (hset _)
          · exact ih _ (hset _)

theorem handleSQLQueries_all (env : SQLEnv) (queries : List DataQuery)
    (qd : QueryDataResponse)
    (hok : ∀ q ∈ queries, ∀ qm, env.NewSQLQueryModel q = .ok qm →
      ∃ result, env.Do qm.RawSQL = .ok result) :
    ∀ q ∈ queries, (handleSQLQueries env qd queries).has q.RefID = true := by
  induction queries generalizing qd with
  | nil => intro q hq; simp at hq
  | cons q0 queries ih =>
    have hrest : ∀ q ∈ queries, ∀ qm, env.NewSQLQueryModel q = .ok qm →
        ∃ result, env.Do qm.RawSQL = .ok result :=
      fun q hq => hok q (List.mem_cons_of_mem _ hq)
    have hset : ∀ response, (qd.set q0.RefID response).has q0.RefID = true :=
      fun response => (QueryDataResponse_has_set qd q0.RefID response q0.RefID).2 (Or.inl rfl)
    have hstep : ∀ response, ∀ q ∈ q0 :: queries,
        (handleSQLQueries env (qd.set q0.RefID response) queries).has q.RefID = true := by
      intro response q hq
      rcases List.mem_cons.1 hq with rfl | hq
      · exact handleSQLQueries_keeps env queries _ _ (hset response)
      · exact ih _ hrest q hq
    intro q hq
    unfold handleSQLQueries
    split
    · exact hstep _ q hq
    · rename_i qm hqm
      obtain ⟨result, hdo⟩ := hok q0 (List.mem_cons_self _ _) qm hqm
      rw [hdo]
      simp only
      split
      · exact hstep _ q hq
      · split
        · exact hstep _ q hq
        · exact hstep _ q hq

/-- C24, what the code does: when the querier is created and no execution
(`querier.Do`) fails, the response has an entry for the RefID of every query;
but when the execution of a query fails, `HandleSQLQuery` returns at once with
a nil error, so the queries after it are not handled: for a first query whose
execution fails the response holds this one entry only, and for the request
`A`, `B` in which `A` fails the response has no entry for `B`. -/
theorem HandleSQLQuery_returns_at_failed_execution :
    (∀ (env : SQLEnv) (queries : List DataQuery), env.NewSQLQuerier = none →
      (∀ q ∈ queries, ∀ qm, env.NewSQLQueryModel q = .ok qm →
        ∃ result, env.Do qm.RawSQL = .ok result) →
      (HandleSQLQuery env queries).2 = none ∧
      ∀ q ∈ queries, (HandleSQLQuery env queries).1.has q.RefID = true) ∧
    (∀ (env : SQLEnv) (q : DataQuery) (rest : List DataQuery) (qm : SQLQueryModel)
      (err : Error), env.NewSQLQuerier = none → env.NewSQLQueryModel q = .ok qm →
      env.Do qm.RawSQL = .error err →
      HandleSQLQuery env (q :: rest) =
        (⟨[(q.RefID, errorFromGRPCResponse env err)]⟩, none)) ∧
    HandleSQLQuery exSQLEnv exSQLQueries =
      (⟨[("A", ⟨none, some (Error.new "flightsql: connection refused"),
        Status.httpServiceUnavailable, ErrorSource.ErrorSourceDownstream⟩)]⟩, none) ∧
    (HandleSQLQuery exSQLEnv exSQLQueries).1.has "A" = true ∧
    (HandleSQLQuery exSQLEnv exSQLQueries).1.has "B" = false := by
  refine ⟨fun env queries hq hok => ?_, fun env q rest qm err hq hqm hdo => ?_,
    by decide, by decide, by decide⟩
  · have hval : HandleSQLQuery env queries = (handleSQLQueries env ⟨[]⟩ queries, none) := by
      simp only [HandleSQLQuery, hq]
    rw [hval]
    exact ⟨rfl, handleSQLQueries_all env queries ⟨[]⟩ hok⟩
  · simp [HandleSQLQuery, hq, handleSQLQueries, hqm, hdo, QueryDataResponse.set]

end Grafana
